import Mathlib

/-!
# D3DDred.js: decoding of the device-removed extended data

A shallow embedding of `src/D3DDred-WinDbg/D3DDred.js`.

Conventions of the embedding.

* The counters and indices of the script are JavaScript numbers holding integers
  (they come from `UINT32` fields), and every operation the script applies to them
  (`+`, `-`, `<`, `>`, `Math.max`, `%`) is exact on integers of that size, so they are
  modelled as `Int`. The JavaScript `%` takes the sign of the dividend: it is `Int.tmod`.
* Pointer subscripts (`p[i]`) read the memory image of the target. The image is modelled
  as a total function from the subscript to the value stored there; a value of pointer
  type is modelled by what the script observes of it.
* A generator is modelled by the list of objects it yields, together with the lines it
  wrote with `host.diagnostics.debugLog` and the exception that ended it, if any.
* `null` is `none`.
-/

namespace D3DDred

/-! ## Constants (lines 6-8) -/

/-- Line 6. -/
def AutoBreadcrumbsBufferSizeInBytes : Int := 65536

/-- Line 7. -/
def AutoBreadcrumbsCommandHistoryOffset : Int := 4096

/-- Line 8. The division is exact, so the JavaScript quotient is this integer. -/
def AutoBreadcrumbsCommandHistoryMax : Int :=
  (AutoBreadcrumbsBufferSizeInBytes - AutoBreadcrumbsCommandHistoryOffset) / 4

/-! ## Free identifiers -/

/-- The identifiers the script can resolve when it uses them free: its own top-level
bindings (lines 6, 7, 8, 10, 12, 34, 47, 449) and the standard and host objects the
source refers to (`host`, `Object`, `Math`, `Symbol`, `Error`). -/
def globalScope : List String :=
  ["AutoBreadcrumbsBufferSizeInBytes", "AutoBreadcrumbsCommandHistoryOffset",
   "AutoBreadcrumbsCommandHistoryMax", "opStrings", "getEnumString", "getContextTable",
   "initializeScript", "uninitializeScript", "host", "Object", "Math", "Symbol", "Error"]

/-- A call `name(a, b)` of a free identifier: evaluating an identifier that is not bound
throws a `ReferenceError`; `f` is what the function computes when the name is bound. -/
def callGlobal (name : String) (f : Int → Int → Int) (a b : Int) : Except String Int :=
  if name ∈ globalScope then Except.ok (f a b)
  else Except.error ("ReferenceError: " ++ name ++ " is not defined")

/-! ## Data model: the fields of `D3D12_AUTO_BREADCRUMB_NODE1` the script reads -/

/-- One `D3D12_DRED_BREADCRUMB_CONTEXT`: `σ` is the type of string pointers. -/
structure BreadcrumbContext (σ : Type) where
  BreadcrumbIndex : Int
  pContextString : σ

/-- A breadcrumb node as the script sees it. `pLastBreadcrumbValue` holds the value that
`node.pLastBreadcrumbValue.dereference()` returns; `pCommandHistory` and
`pBreadcrumbContexts` give the value read at each subscript. `ω` is the type of raw
op-codes. -/
structure BreadcrumbNode (ω σ : Type) where
  BreadcrumbCount : Int
  pLastBreadcrumbValue : Int
  pCommandHistory : Int → ω
  BreadcrumbContextsCount : Int
  pBreadcrumbContexts : Int → BreadcrumbContext σ

/-- A JavaScript object used as a dictionary from integer keys to integers: the value of
each own property, `none` where the object has no such property. -/
abbrev ContextTable := Int → Option Int

/-- The object literal of line 36. -/
def ContextTable.empty : ContextTable := fun _ => none

/-- The assignment `contextTable[key] = value` of line 41. -/
def ContextTable.set (t : ContextTable) (key value : Int) : ContextTable :=
  fun k => if k = key then some value else t k

/-- The test `contextTable.hasOwnProperty(key)` of lines 104 and 147. -/
def ContextTable.hasOwnProperty (t : ContextTable) (key : Int) : Bool := (t key).isSome

/-- The loop of lines 39-42, entered with the loop variable `i` and the table so far. -/
def getContextTable.loop {ω σ : Type} (node : BreadcrumbNode ω σ) (i : Int)
    (contextTable : ContextTable) : ContextTable :=
  if i < node.BreadcrumbContextsCount then
    getContextTable.loop node (i + 1)
      (contextTable.set (node.pBreadcrumbContexts i).BreadcrumbIndex i)
  else contextTable
termination_by (node.BreadcrumbContextsCount - i).toNat
decreasing_by omega

/-- Lines 34-45. -/
def getContextTable {ω σ : Type} (node : BreadcrumbNode ω σ) : ContextTable :=
  getContextTable.loop node 0 ContextTable.empty

/-! ## Breadcrumb operations (lines 51-67) -/

/-- The class `BreadcrumbOp`: the op-code and the context string pointer or `null`. -/
structure BreadcrumbOp (ω σ : Type) where
  op : ω
  context : Option σ
deriving DecidableEq, Repr

/-- What one iteration of a view records: the loop variable (`count` or `opIndex`), the
local `index` used as the subscript of `pCommandHistory`, and the object it yields. -/
structure Yield (ω σ : Type) where
  counter : Int
  index : Int
  value : BreadcrumbOp ω σ
deriving DecidableEq, Repr

/-- The outcome of running a generator to its end. -/
structure Run (ε : Type) where
  log : List String
  yielded : List ε
  thrown : Option String

/-- The statements both views run for one `index` (lines 101-108 and 144-152): read the
op-code at `pCommandHistory[index]`, look `index` up in the context table, and build the
`BreadcrumbOp`. `marshalAs` only gives the raw value its enumeration type. -/
def readBreadcrumbOp {ω σ : Type} (node : BreadcrumbNode ω σ) (contextTable : ContextTable)
    (index : Int) : BreadcrumbOp ω σ :=
  let op := node.pCommandHistory index
  let contextString : Option σ :=
    if contextTable.hasOwnProperty index then
      match contextTable index with
      | some j => some (node.pBreadcrumbContexts j).pContextString
      | none => none
    else none
  BreadcrumbOp.mk op contextString

/-! ## Completed operations (lines 69-111) -/

/-- The class `CompletedOps` with the fields its constructor sets. -/
structure CompletedOps (ω σ : Type) where
  node : BreadcrumbNode ω σ
  numCompletedOps : Int
  numOps : Int

/-- Lines 72-77. -/
def CompletedOps.new {ω σ : Type} (node : BreadcrumbNode ω σ) : CompletedOps ω σ :=
  CompletedOps.mk node node.pLastBreadcrumbValue node.BreadcrumbCount

/-- Lines 79-82. -/
def CompletedOps.toString {ω σ : Type} (this : CompletedOps ω σ) : String :=
  "Count: " ++ ToString.toString this.numCompletedOps

/-- The loop of lines 98-109, entered with the loop variable `count`. The capacity
constant is the argument `cap`. -/
def CompletedOps.loop {ω σ : Type} (cap : Int) (this : CompletedOps ω σ)
    (contextTable : ContextTable) (count : Int) : List (Yield ω σ) :=
  if count < this.numCompletedOps ∧ count < cap then
    let index := this.numCompletedOps - count - 1
    Yield.mk count index (readBreadcrumbOp this.node contextTable index)
      :: CompletedOps.loop cap this contextTable (count + 1)
  else []
termination_by (cap - count).toNat
decreasing_by omega

/-- Lines 84-110 with the capacity constant taken as the argument `cap`. -/
def CompletedOps.iteratorWith {ω σ : Type} (cap : Int) (this : CompletedOps ω σ) :
    Run (Yield ω σ) :=
  if this.numOps > cap then
    let line88 := "Number of command operations exceeds " ++ ToString.toString cap
      ++ ", the capacity of the AutoBreadcrumb command history"
    let totalDroppedCount := this.numOps - cap
    match callGlobal "max" max 0 (this.numCompletedOps - totalDroppedCount) with
    | Except.error e => Run.mk [line88] [] (some e)
    | Except.ok completedDroppedCount =>
      Run.mk
        [line88,
         "Total commands dropped: " ++ ToString.toString totalDroppedCount,
         "Completed commands dropped: " ++ ToString.toString completedDroppedCount]
        (CompletedOps.loop cap this (getContextTable this.node) 0) none
  else
    Run.mk [] (CompletedOps.loop cap this (getContextTable this.node) 0) none

/-- Lines 84-110: the generator of the completed view. -/
def CompletedOps.iterator {ω σ : Type} (this : CompletedOps ω σ) : Run (Yield ω σ) :=
  CompletedOps.iteratorWith AutoBreadcrumbsCommandHistoryMax this

/-! ## Outstanding operations (lines 113-155) -/

/-- The class `OutstandingOps` with the fields its constructor sets. -/
structure OutstandingOps (ω σ : Type) where
  node : BreadcrumbNode ω σ
  numCompletedOps : Int
  numOps : Int

/-- Lines 116-121. -/
def OutstandingOps.new {ω σ : Type} (node : BreadcrumbNode ω σ) : OutstandingOps ω σ :=
  OutstandingOps.mk node node.pLastBreadcrumbValue node.BreadcrumbCount

/-- Lines 123-126: the text is `"Count: "` followed by the number
`this.__numOps - this.__numCompletedOps`. -/
def OutstandingOps.toString {ω σ : Type} (this : OutstandingOps ω σ) : String :=
  "Count: " ++ ToString.toString (this.numOps - this.numCompletedOps)

/-- Line 130: the local `outstanding`. -/
def OutstandingOps.outstanding {ω σ : Type} (this : OutstandingOps ω σ) : Int :=
  this.numOps - this.numCompletedOps

/-- Line 131: the local `dropped`. -/
def OutstandingOps.dropped {ω σ : Type} (cap : Int) (this : OutstandingOps ω σ) : Int :=
  this.outstanding - cap

/-- Line 132: the local `remaining`. -/
def OutstandingOps.remaining {ω σ : Type} (cap : Int) (this : OutstandingOps ω σ) : Int :=
  this.outstanding - OutstandingOps.dropped cap this

/-- Line 137: the local `start`. -/
def OutstandingOps.start {ω σ : Type} (cap : Int) (this : OutstandingOps ω σ) : Int :=
  max this.numCompletedOps (this.numOps - cap)

/-- Line 135: the text of the diagnostic. -/
def OutstandingOps.line135 (remaining outstanding : Int) : String :=
  "Only the last " ++ ToString.toString remaining ++ " of " ++ ToString.toString outstanding
    ++ " outstanding operations are available\n"

/-- The loop of lines 141-153, entered with the loop variable `opIndex`. -/
def OutstandingOps.loop {ω σ : Type} (cap : Int) (this : OutstandingOps ω σ)
    (contextTable : ContextTable) (opIndex : Int) : List (Yield ω σ) :=
  if opIndex < this.numOps then
    let index := Int.tmod opIndex cap
    Yield.mk opIndex index (readBreadcrumbOp this.node contextTable index)
      :: OutstandingOps.loop cap this contextTable (opIndex + 1)
  else []
termination_by (this.numOps - opIndex).toNat
decreasing_by omega

/-- Lines 128-154 with the capacity constant taken as the argument `cap`. -/
def OutstandingOps.iteratorWith {ω σ : Type} (cap : Int) (this : OutstandingOps ω σ) :
    Run (Yield ω σ) :=
  let outstanding := this.outstanding
  let dropped := OutstandingOps.dropped cap this
  let remaining := OutstandingOps.remaining cap this
  let log := if dropped > 0 then [OutstandingOps.line135 remaining outstanding] else []
  let start := OutstandingOps.start cap this
  Run.mk log (OutstandingOps.loop cap this (getContextTable this.node) start) none

/-- Lines 128-154: the generator of the outstanding view. -/
def OutstandingOps.iterator {ω σ : Type} (this : OutstandingOps ω σ) : Run (Yield ω σ) :=
  OutstandingOps.iteratorWith AutoBreadcrumbsCommandHistoryMax this

/-! ## Linked chains (lines 205-235) -/

/-- The method `Flatten` of the debugger's collection objects, which belongs to the host
and not to the script: it lists every element of a tree, a parent before its children,
where `children x` is what the projector returns for `x` (`none` for `null`). The walk
takes one unit of `fuel` for each element it lists and is `none` when the fuel runs out
first. The script's projector returns at most one child, and then every order that puts a
parent before its child lists the elements in the same sequence. -/
def Flatten {α : Type} (children : α → Option (List α)) : Nat → List α → Option (List α)
  | _, [] => some []
  | 0, _ :: _ => none
  | fuel + 1, x :: rest =>
    match children x with
    | none => (Flatten children fuel rest).map (fun l => x :: l)
    | some cs => (Flatten children fuel (cs ++ rest)).map (fun l => x :: l)

/-- The property `isNull` of a pointer; pointers are addresses and the null pointer is
the address `0`. -/
def isNull (p : Nat) : Bool := p == 0

/-- The projector of lines 213-214; `pNext a` is the field `pNext` of the node stored at
address `a`. -/
def LinkedDredNodesToArray.projector (pNext : Nat → Nat) (node : Nat) : Option (List Nat) :=
  if isNull (pNext node) then none else some [pNext node]

/-- The class `LinkedDredNodesToArray` with the field its constructor sets. -/
structure LinkedDredNodesToArray where
  nodes : List Nat
deriving DecidableEq, Repr

/-- Lines 208-221: the constructor, `none` when the walk of `Flatten` runs out of
`fuel`. -/
def LinkedDredNodesToArray.new (pNext : Nat → Nat) (fuel : Nat) (headNode : Nat) :
    Option LinkedDredNodesToArray :=
  if !(isNull headNode) then
    (Flatten (LinkedDredNodesToArray.projector pNext) fuel [headNode]).map
      LinkedDredNodesToArray.mk
  else
    some (LinkedDredNodesToArray.mk [])

/-- Lines 228-234: the generator yields the elements of `__nodes` in order. -/
def LinkedDredNodesToArray.iterator (this : LinkedDredNodesToArray) : List Nat :=
  this.nodes

/-- A chain in memory: `IsChain pNext head l` says that following `pNext` from `head`
visits exactly the addresses of `l`, none of them null, and then reaches null. -/
def IsChain (pNext : Nat → Nat) : Nat → List Nat → Prop
  | head, [] => head = 0
  | head, a :: rest => head = a ∧ a ≠ 0 ∧ IsChain pNext (pNext a) rest

/-- Lines 208-221 with the host's method `Flatten` taken as the argument `flatten`,
which answers `none` when the host's walk does not end: what the constructor itself does
with the head and with whatever the host returns. -/
def LinkedDredNodesToArray.newWith
    (flatten : (Nat → Option (List Nat)) → List Nat → Option (List Nat))
    (pNext : Nat → Nat) (headNode : Nat) : Option LinkedDredNodesToArray :=
  if !(isNull headNode) then
    (flatten (LinkedDredNodesToArray.projector pNext) [headNode]).map
      LinkedDredNodesToArray.mk
  else
    some (LinkedDredNodesToArray.mk [])

/-- A host walk that bounds itself: it lists elements as `Flatten` does and stops once
it has listed `cap` of them. -/
def FlattenCapped {α : Type} (children : α → Option (List α)) : Nat → List α → List α
  | _, [] => []
  | 0, _ :: _ => []
  | cap + 1, x :: rest =>
    match children x with
    | none => x :: FlattenCapped children cap rest
    | some cs => x :: FlattenCapped children cap (cs ++ rest)

/-! ## Version dispatch (lines 357-386) -/

/-- The fields of `D3D12_VERSIONED_DEVICE_REMOVED_EXTENDED_DATA`. -/
structure VersionedDeviceRemovedExtendedData (δ0 δ1 δ2 δ3 : Type) where
  Version : Int
  Dred_1_0 : δ0
  Dred_1_1 : δ1
  Dred_1_2 : δ2
  Dred_1_3 : δ3

/-- The values the getter `Data` can return: one of the four variants, or the object
that `Error(message)` constructs. -/
inductive DataValue (δ0 δ1 δ2 δ3 : Type) where
  | Dred_1_0 (data : δ0)
  | Dred_1_1 (data : δ1)
  | Dred_1_2 (data : δ2)
  | Dred_1_3 (data : δ3)
  | Error (message : String)
deriving DecidableEq, Repr

/-- Lines 361-385: `Except.ok v` is `return v`, `Except.error` would be a `throw`. -/
def VersionedDeviceRemovedExtendedDataVis.Data {δ0 δ1 δ2 δ3 : Type}
    (this : VersionedDeviceRemovedExtendedData δ0 δ1 δ2 δ3) :
    Except String (DataValue δ0 δ1 δ2 δ3) :=
  if this.Version = 1 then Except.ok (DataValue.Dred_1_0 this.Dred_1_0)
  else if this.Version = 2 then Except.ok (DataValue.Dred_1_1 this.Dred_1_1)
  else if this.Version = 3 then Except.ok (DataValue.Dred_1_2 this.Dred_1_2)
  else if this.Version = 4 then Except.ok (DataValue.Dred_1_3 this.Dred_1_3)
  else Except.ok (DataValue.Error "Invalid or corrupt version data")

/-! ## Enumerant names (lines 10-32) -/

/-- The global object `opStrings` of line 10, used as a dictionary from raw values to
enumerant names: its own properties as key and value pairs, one pair for each key. The
script only looks keys up and counts them, so the order of the pairs has no meaning. -/
abbrev OpStrings := List (Int × String)

/-- The call `Object.keys(opStrings)` of line 14. -/
def OpStrings.keys (o : OpStrings) : List Int := o.map Prod.fst

/-- The assignment `opStrings[key] = value` of line 21: the pair for `key` replaces the
one the object had for that key, if any. -/
def OpStrings.set (o : OpStrings) (key : Int) (value : String) : OpStrings :=
  (key, value) :: o.filter (fun p => p.1 != key)

/-- The test `opStrings.hasOwnProperty(key)` of line 26. -/
def OpStrings.hasOwnProperty (o : OpStrings) (key : Int) : Bool :=
  o.any (fun p => p.1 == key)

/-- The read `opStrings[key]` of line 28, `none` for `undefined`. -/
def OpStrings.get (o : OpStrings) (key : Int) : Option String :=
  (o.find? (fun p => p.1 == key)).map Prod.snd

/-- An enumeration type as the script sees it: the own properties of `enumType.fields` in
order, each with the enumerant name and the `value` of the enumerant. -/
structure EnumType where
  fields : List (String × Int)

/-- The loop of lines 18-22 over the enumerant names, entered with the dictionary so
far. -/
def getEnumString.build (fields : List (String × Int)) (opStrings : OpStrings) : OpStrings :=
  fields.foldl (fun o enumerant => o.set enumerant.2 enumerant.1) opStrings

/-- Lines 12-32. The global `opStrings` is passed in and handed back with the result;
`val` is the raw value `val.value`. -/
def getEnumString (opStrings : OpStrings) (val : Int) (enumType : EnumType) :
    String × OpStrings :=
  let keys := opStrings.keys
  let opStrings :=
    if keys.length == 0 then getEnumString.build enumType.fields opStrings else opStrings
  let key := val
  if opStrings.hasOwnProperty key then
    match opStrings.get key with
    | some name => (name, opStrings)
    | none => ("undefined", opStrings)
  else
    ("Unknown", opStrings)

/-- The state of `opStrings` after a sequence of calls of `getEnumString`, each with its
raw value and enumeration type, started from the dictionary `opStrings`. -/
def getEnumString.cacheAfter (opStrings : OpStrings) : List (Int × EnumType) → OpStrings
  | [] => opStrings
  | call :: rest =>
    getEnumString.cacheAfter (getEnumString opStrings call.1 call.2).2 rest

/-! ## Name selection (lines 174-186) -/

/-- A pointer to a debug name: `wide` tells the `wchar_t` pointer from the `char`
pointer, `address` is where it points, `0` for the null pointer. -/
structure NamePointer where
  wide : Bool
  address : Nat
deriving DecidableEq, Repr

/-- The property `isNull` of a name pointer. -/
def NamePointer.isNull (p : NamePointer) : Bool := D3DDred.isNull p.address

/-- Lines 175-186. -/
def SelectNameHelper (pNameA pNameW : NamePointer) : NamePointer :=
  if pNameA.isNull then pNameW else pNameA

/-! ## The entry point (lines 388-435) -/

/-- What the script asks of the debugger host in `__d3d12DeviceRemovedExtendedData`:
`getModuleSymbolAddress m` is `host.getModuleSymbolAddress(m,
"D3D12DeviceRemovedExtendedData")`, `none` for `null`; `createTypedObject x m` is
`host.createTypedObject(x, m, "D3D12_VERSIONED_DEVICE_REMOVED_EXTENDED_DATA")`, which
throws when the module `m` does not give the layout; `Modules` lists the names of
`host.currentProcess.Modules` in enumeration order. -/
structure Host (δ0 δ1 δ2 δ3 : Type) where
  getModuleSymbolAddress : String → Option Nat
  createTypedObject : Option Nat → String →
    Except String (VersionedDeviceRemovedExtendedData δ0 δ1 δ2 δ3)
  Modules : List String

/-- What a call of the entry point leaves: the closure variable `symbolSource`, the lines
written with `debugLog`, and the value returned, `none` for `null`. -/
structure Outcome (δ0 δ1 δ2 δ3 : Type) where
  symbolSource : String
  log : List String
  returned : Option (DataValue δ0 δ1 δ2 δ3)

/-- The body of a `try` block of lines 408-409 and 422-423: cast the address with the
layout of the module `source` and read the property `Data`. -/
def castAndDispatch {δ0 δ1 δ2 δ3 : Type} (host : Host δ0 δ1 δ2 δ3) (x : Option Nat)
    (source : String) : Except String (DataValue δ0 δ1 δ2 δ3) :=
  match host.createTypedObject x source with
  | Except.ok dred => VersionedDeviceRemovedExtendedDataVis.Data dred
  | Except.error err => Except.error err

/-- The loop of lines 417-429 over the modules still to try, entered with the current
`symbolSource`: the value returned from inside the loop with the module that gave it, or
the last `symbolSource` when the loop ends. -/
def __d3d12DeviceRemovedExtendedData.loop {δ0 δ1 δ2 δ3 : Type} (host : Host δ0 δ1 δ2 δ3)
    (x : Option Nat) : String → List String → String × Option (DataValue δ0 δ1 δ2 δ3)
  | symbolSource, [] => (symbolSource, none)
  | _, m :: rest =>
    match castAndDispatch host x m with
    | Except.ok data => (m, some data)
    | Except.error _ => __d3d12DeviceRemovedExtendedData.loop host x m rest

/-- Lines 388-435. -/
def __d3d12DeviceRemovedExtendedData {δ0 δ1 δ2 δ3 : Type} (host : Host δ0 δ1 δ2 δ3) :
    Outcome δ0 δ1 δ2 δ3 :=
  let core := host.getModuleSymbolAddress "d3d12core"
  let symbolSource := if core.isNone then "d3d12" else "d3d12core"
  let x := if core.isNone then host.getModuleSymbolAddress "d3d12" else core
  match castAndDispatch host x symbolSource with
  | Except.ok data => Outcome.mk symbolSource [] (some data)
  | Except.error _ =>
    match __d3d12DeviceRemovedExtendedData.loop host x symbolSource host.Modules with
    | (source, some data) => Outcome.mk source [] (some data)
    | (source, none) =>
      Outcome.mk source
        ["ERROR: D3D12_VERSIONED_DEVICE_REMOVED_EXTENDED_DATA not found in any loaded symbol files.\n"]
        none

/-! ## Example nodes -/

/-- A node with the given counters whose command history holds the op-code `i` at
subscript `i` and which has no context annotations. -/
def plainNode (issued completed : Int) : BreadcrumbNode Int Unit :=
  BreadcrumbNode.mk issued completed (fun i => i) 0 (fun _ => BreadcrumbContext.mk 0 ())

/-- The node of the end-to-end scenario: ten operations issued, six completed, op-code
`100 + i` at subscript `i`, and three annotations, two of them for index 2. -/
def scenarioNode : BreadcrumbNode Int String :=
  BreadcrumbNode.mk 10 6 (fun i => 100 + i) 3
    (fun i => if i = 0 then BreadcrumbContext.mk 2 "first"
      else if i = 1 then BreadcrumbContext.mk 0 "second"
      else BreadcrumbContext.mk 2 "third")

/-- A memory image holding the chain `16 → 32 → 48 → null`. -/
def chainMemory (a : Nat) : Nat :=
  if a = 16 then 32 else if a = 32 then 48 else 0

/-- A memory image holding the cycle `16 → 32 → 16`. -/
def cycleMemory (a : Nat) : Nat :=
  if a = 16 then 32 else if a = 32 then 16 else 0

/-- An enumeration with two enumerants, the values 0 and 1. -/
def opEnum : EnumType :=
  EnumType.mk [("D3D12_AUTO_BREADCRUMB_OP_SETMARKER", 0),
    ("D3D12_AUTO_BREADCRUMB_OP_BEGINEVENT", 1)]

/-- Another enumeration, which gives other names to the values 0 and 2. -/
def allocationEnum : EnumType :=
  EnumType.mk [("D3D12_DRED_ALLOCATION_TYPE_COMMAND_QUEUE", 0),
    ("D3D12_DRED_ALLOCATION_TYPE_HEAP", 2)]

/-- A host where only `d3d12` exports the symbol, at address 4096, and where of the
loaded modules `app.exe`, `d3d12` and `game` only `game` gives the layout; the envelope
it shows has the tag 2. -/
def strippedHost : Host String String String String :=
  Host.mk (fun m => if m = "d3d12" then some 4096 else none)
    (fun x m =>
      if x = some 4096 ∧ m = "game" then
        Except.ok (VersionedDeviceRemovedExtendedData.mk 2 "v1" "v2" "v3" "v4")
      else Except.error "Unable to find type")
    ["app.exe", "d3d12", "game"]

/-- A host where no module gives the layout. -/
def bareHost : Host String String String String :=
  Host.mk (fun m => if m = "d3d12core" then some 8192 else none)
    (fun _ _ => Except.error "Unable to find type")
    ["app.exe", "d3d12core"]

/-! ## Lemmas on the loops -/

/-- The loop of the completed view in closed form. -/
theorem CompletedOps.loop_closed_form {ω σ : Type} (cap : Int) (this : CompletedOps ω σ)
    (t : ContextTable) :
    ∀ (n : Nat) (count : Int), (min this.numCompletedOps cap - count).toNat = n →
      CompletedOps.loop cap this t count =
        (List.range n).map (fun j : Nat =>
          Yield.mk (count + j) (this.numCompletedOps - (count + j) - 1)
            (readBreadcrumbOp this.node t (this.numCompletedOps - (count + j) - 1))) := by
  intro n
  induction n with
  | zero =>
    intro count h
    rw [CompletedOps.loop]
    have : ¬ (count < this.numCompletedOps ∧ count < cap) := by omega
    simp [this]
  | succ n ih =>
    intro count h
    rw [CompletedOps.loop]
    have hc : count < this.numCompletedOps ∧ count < cap := by omega
    rw [if_pos hc, ih (count + 1) (by omega), List.range_succ_eq_map]
    simp only [List.map_cons, List.map_map, Nat.cast_zero, add_zero]
    congr 1
    apply List.map_congr_left
    intro j _
    simp only [Function.comp, Nat.cast_succ]
    have e : count + 1 + (j : Int) = count + ((j : Int) + 1) := by ring
    rw [e]

/-- The loop of the outstanding view in closed form. -/
theorem OutstandingOps.loop_ascending_form {ω σ : Type} (cap : Int) (this : OutstandingOps ω σ)
    (t : ContextTable) :
    ∀ (n : Nat) (opIndex : Int), (this.numOps - opIndex).toNat = n →
      OutstandingOps.loop cap this t opIndex =
        (List.range n).map (fun j : Nat =>
          Yield.mk (opIndex + j) (Int.tmod (opIndex + j) cap)
            (readBreadcrumbOp this.node t (Int.tmod (opIndex + j) cap))) := by
  intro n
  induction n with
  | zero =>
    intro opIndex h
    rw [OutstandingOps.loop]
    have : ¬ (opIndex < this.numOps) := by omega
    simp [this]
  | succ n ih =>
    intro opIndex h
    rw [OutstandingOps.loop]
    have hc : opIndex < this.numOps := by omega
    rw [if_pos hc, ih (opIndex + 1) (by omega), List.range_succ_eq_map]
    simp only [List.map_cons, List.map_map, Nat.cast_zero, add_zero]
    congr 1
    apply List.map_congr_left
    intro j _
    simp only [Function.comp, Nat.cast_succ]
    have e : opIndex + 1 + (j : Int) = opIndex + ((j : Int) + 1) := by ring
    rw [e]

/-- The text of the exception that the call of line 90 raises. -/
theorem callGlobal_max (a b : Int) :
    callGlobal "max" max a b = Except.error "ReferenceError: max is not defined" := by
  have h : "max" ∉ globalScope := by decide
  simp only [callGlobal, if_neg h]
  rfl

/-- Whenever the issued counter exceeds the capacity, the completed view ends at line 90
before anything is yielded. -/
theorem CompletedOps.iteratorWith_overflow {ω σ : Type} (cap : Int) (this : CompletedOps ω σ)
    (h : this.numOps > cap) :
    CompletedOps.iteratorWith cap this =
      Run.mk ["Number of command operations exceeds " ++ ToString.toString cap
          ++ ", the capacity of the AutoBreadcrumb command history"] []
        (some "ReferenceError: max is not defined") := by
  simp only [CompletedOps.iteratorWith, if_pos h, callGlobal_max]

/-- Whenever the issued counter is within the capacity, the completed view logs nothing
and runs its loop to the end. -/
theorem CompletedOps.iteratorWith_fits {ω σ : Type} (cap : Int) (this : CompletedOps ω σ)
    (h : ¬ this.numOps > cap) :
    CompletedOps.iteratorWith cap this =
      Run.mk [] (CompletedOps.loop cap this (getContextTable this.node) 0) none := by
  simp only [CompletedOps.iteratorWith, if_neg h]

/-- What the loop of `getContextTable` leaves under a key: the position of the last
remaining entry with that key, or else what the table held before. -/
theorem getContextTable.loop_spec {ω σ : Type} (node : BreadcrumbNode ω σ) :
    ∀ (n : Nat) (i : Int) (t : ContextTable), (node.BreadcrumbContextsCount - i).toNat = n →
      ∀ (k v : Int), getContextTable.loop node i t k = some v ↔
        ((i ≤ v ∧ v < node.BreadcrumbContextsCount
            ∧ (node.pBreadcrumbContexts v).BreadcrumbIndex = k
            ∧ ∀ j : Int, v < j → j < node.BreadcrumbContextsCount →
                (node.pBreadcrumbContexts j).BreadcrumbIndex ≠ k)
          ∨ (t k = some v
            ∧ ∀ j : Int, i ≤ j → j < node.BreadcrumbContextsCount →
                (node.pBreadcrumbContexts j).BreadcrumbIndex ≠ k)) := by
  intro n
  induction n with
  | zero =>
    intro i t h k v
    rw [getContextTable.loop]
    have hi : ¬ i < node.BreadcrumbContextsCount := by omega
    rw [if_neg hi]
    constructor
    · intro htk
      exact Or.inr ⟨htk, fun j h1 h2 => absurd (lt_of_le_of_lt h1 h2) hi⟩
    · rintro (⟨h1, h2, _⟩ | ⟨htk, _⟩)
      · exact absurd (lt_of_le_of_lt h1 h2) hi
      · exact htk
  | succ n ih =>
    intro i t h k v
    rw [getContextTable.loop]
    have hi : i < node.BreadcrumbContextsCount := by omega
    rw [if_pos hi, ih (i + 1) _ (by omega) k v]
    by_cases hk : (node.pBreadcrumbContexts i).BreadcrumbIndex = k
    · have hset : ContextTable.set t (node.pBreadcrumbContexts i).BreadcrumbIndex i k = some i := by
        simp [ContextTable.set, hk]
      rw [hset]
      constructor
      · rintro (⟨h1, h2, h3, h4⟩ | ⟨hv, h4⟩)
        · exact Or.inl ⟨by omega, h2, h3, h4⟩
        · have hvi : i = v := Option.some.inj hv
          subst hvi
          exact Or.inl ⟨le_refl _, hi, hk, fun j h1 h2 => h4 j (by omega) h2⟩
      · rintro (⟨h1, h2, h3, h4⟩ | ⟨_, h4⟩)
        · by_cases hiv : i = v
          · subst hiv
            exact Or.inr ⟨rfl, fun j h1 h2 => h4 j (by omega) h2⟩
          · exact Or.inl ⟨by omega, h2, h3, h4⟩
        · exact absurd hk (h4 i (le_refl _) hi)
    · have hset : ContextTable.set t (node.pBreadcrumbContexts i).BreadcrumbIndex i k = t k := by
        have hk2 : ¬ k = (node.pBreadcrumbContexts i).BreadcrumbIndex := fun e => hk e.symm
        simp [ContextTable.set, hk2]
      rw [hset]
      constructor
      · rintro (⟨h1, h2, h3, h4⟩ | ⟨hv, h4⟩)
        · exact Or.inl ⟨by omega, h2, h3, h4⟩
        · refine Or.inr ⟨hv, fun j h1 h2 => ?_⟩
          by_cases hij : i = j
          · subst hij; exact hk
          · exact h4 j (by omega) h2
      · rintro (⟨h1, h2, h3, h4⟩ | ⟨hv, h4⟩)
        · by_cases hiv : i = v
          · subst hiv; exact absurd h3 hk
          · exact Or.inl ⟨by omega, h2, h3, h4⟩
        · exact Or.inr ⟨hv, fun j h1 h2 => h4 j (by omega) h2⟩

/-- The keys the loop of `getContextTable` leaves in the table: those of the remaining
entries and those the table held before. -/
theorem getContextTable.loop_keys {ω σ : Type} (node : BreadcrumbNode ω σ) :
    ∀ (n : Nat) (i : Int) (t : ContextTable), (node.BreadcrumbContextsCount - i).toNat = n →
      ∀ k : Int, (getContextTable.loop node i t).hasOwnProperty k = true ↔
        ((∃ j : Int, i ≤ j ∧ j < node.BreadcrumbContextsCount
            ∧ (node.pBreadcrumbContexts j).BreadcrumbIndex = k)
          ∨ t.hasOwnProperty k = true) := by
  intro n
  induction n with
  | zero =>
    intro i t h k
    rw [getContextTable.loop]
    have hi : ¬ i < node.BreadcrumbContextsCount := by omega
    rw [if_neg hi]
    constructor
    · intro h1; exact Or.inr h1
    · rintro (⟨j, h1, h2, _⟩ | h1)
      · exact absurd (lt_of_le_of_lt h1 h2) hi
      · exact h1
  | succ n ih =>
    intro i t h k
    rw [getContextTable.loop]
    have hi : i < node.BreadcrumbContextsCount := by omega
    rw [if_pos hi, ih (i + 1) _ (by omega) k]
    by_cases hk : (node.pBreadcrumbContexts i).BreadcrumbIndex = k
    · constructor
      · intro _
        exact Or.inl ⟨i, le_refl _, hi, hk⟩
      · intro _
        refine Or.inr ?_
        simp [ContextTable.hasOwnProperty, ContextTable.set, hk]
    · have hset : (ContextTable.set t (node.pBreadcrumbContexts i).BreadcrumbIndex i).hasOwnProperty k
          = t.hasOwnProperty k := by
        have hk2 : ¬ k = (node.pBreadcrumbContexts i).BreadcrumbIndex := fun e => hk e.symm
        simp [ContextTable.hasOwnProperty, ContextTable.set, hk2]
      rw [hset]
      constructor
      · rintro (⟨j, h1, h2, h3⟩ | h1)
        · exact Or.inl ⟨j, by omega, h2, h3⟩
        · exact Or.inr h1
      · rintro (⟨j, h1, h2, h3⟩ | h1)
        · by_cases hij : i = j
          · subst hij; exact absurd h3 hk
          · exact Or.inl ⟨j, by omega, h2, h3⟩
        · exact Or.inr h1

/-- Walking a chain with enough fuel lists its addresses in link order. -/
theorem Flatten_chain (pNext : Nat → Nat) :
    ∀ (l : List Nat) (a : Nat) (fuel : Nat), IsChain pNext a (a :: l) → l.length + 1 ≤ fuel →
      Flatten (LinkedDredNodesToArray.projector pNext) fuel [a] = some (a :: l) := by
  intro l
  induction l with
  | nil =>
    intro a fuel h hf
    obtain ⟨f, rfl⟩ : ∃ f, fuel = f + 1 := ⟨fuel - 1, by simp at hf; omega⟩
    have hn : pNext a = 0 := h.2.2
    simp [Flatten, LinkedDredNodesToArray.projector, isNull, hn]
  | cons b rest ih =>
    intro a fuel h hf
    obtain ⟨f, rfl⟩ : ∃ f, fuel = f + 1 := ⟨fuel - 1, by simp at hf; omega⟩
    have hb : pNext a = b := h.2.2.1
    have hb0 : b ≠ 0 := h.2.2.2.1
    have hrest : IsChain pNext b (b :: rest) := by
      have := h.2.2
      rw [hb] at this
      exact this
    have := ih b f hrest (by simp at hf ⊢; omega)
    simp [Flatten, LinkedDredNodesToArray.projector, isNull, hb, hb0, this]

/-! ## Lemmas for the later claims -/

/-- On the cycle `16 → 32 → 16` the walk runs out of every amount of fuel. -/
theorem Flatten_cycle_never_ends :
    ∀ fuel : Nat,
      Flatten (LinkedDredNodesToArray.projector cycleMemory) fuel [16] = none
      ∧ Flatten (LinkedDredNodesToArray.projector cycleMemory) fuel [32] = none := by
  intro fuel
  induction fuel with
  | zero => exact ⟨rfl, rfl⟩
  | succ f ih =>
    constructor
    · simp [Flatten, LinkedDredNodesToArray.projector, isNull, cycleMemory, ih.2]
    · simp [Flatten, LinkedDredNodesToArray.projector, isNull, cycleMemory, ih.1]

/-- Counting down from `n - 1` and reversing is counting up to `n - 1`. -/
theorem reverse_countdown (n : Nat) :
    ((List.range n).map (fun j : Nat => (n : Int) - (0 + (j : Int)) - 1)).reverse
      = (List.range n).map (fun j : Nat => (j : Int)) := by
  induction n with
  | zero => rfl
  | succ n ih =>
    have e : (fun j : Nat => ((n + 1 : Nat) : Int) - (0 + (j : Int)) - 1) ∘ Nat.succ
        = fun j : Nat => (n : Int) - (0 + (j : Int)) - 1 := by
      funext j
      simp only [Function.comp, Nat.cast_succ]
      ring
    conv_lhs => rw [List.range_succ_eq_map, List.map_cons, List.map_map, List.reverse_cons, e, ih]
    rw [List.range_succ, List.map_append]
    simp

/-- Every object the outstanding view yields was built by `readBreadcrumbOp` for the
subscript `opIndex % cap` of its loop variable, which runs from `start` up to the issued
counter. -/
theorem OutstandingOps.mem_yielded_outstanding {ω σ : Type} (cap : Int) (node : BreadcrumbNode ω σ)
    (y : Yield ω σ)
    (hy : y ∈ (OutstandingOps.iteratorWith cap (OutstandingOps.new node)).yielded) :
    OutstandingOps.start cap (OutstandingOps.new node) ≤ y.counter
    ∧ y.counter < node.BreadcrumbCount
    ∧ y.index = Int.tmod y.counter cap
    ∧ y.value = readBreadcrumbOp node (getContextTable node) y.index := by
  simp only [OutstandingOps.iteratorWith] at hy
  rw [OutstandingOps.loop_ascending_form cap _ _ _ _ rfl, List.mem_map] at hy
  obtain ⟨j, hj, rfl⟩ := hy
  rw [List.mem_range] at hj
  have hn : (OutstandingOps.new node).numOps = node.BreadcrumbCount := rfl
  rw [hn] at hj
  refine ⟨by simp, ?_, rfl, rfl⟩
  simp only
  omega

/-- Every object the completed view yields was built by `readBreadcrumbOp` for the
subscript `completed - count - 1` of its loop variable. -/
theorem CompletedOps.mem_yielded_completed {ω σ : Type} (cap : Int) (node : BreadcrumbNode ω σ)
    (y : Yield ω σ)
    (hy : y ∈ (CompletedOps.iteratorWith cap (CompletedOps.new node)).yielded) :
    0 ≤ y.counter
    ∧ y.index = node.pLastBreadcrumbValue - y.counter - 1
    ∧ y.value = readBreadcrumbOp node (getContextTable node) y.index := by
  by_cases hov : (CompletedOps.new node).numOps > cap
  · rw [CompletedOps.iteratorWith_overflow cap _ hov] at hy
    simp at hy
  · rw [CompletedOps.iteratorWith_fits cap _ hov] at hy
    simp only [] at hy
    rw [CompletedOps.loop_closed_form cap _ _ _ _ rfl, List.mem_map] at hy
    obtain ⟨j, _, rfl⟩ := hy
    refine ⟨by simp, rfl, rfl⟩

/-- The value `getContextTable` leaves under a key is the position of the last entry
with that key. -/
theorem getContextTable_last {ω σ : Type} (node : BreadcrumbNode ω σ) (k v : Int) :
    getContextTable node k = some v ↔
      (0 ≤ v ∧ v < node.BreadcrumbContextsCount
        ∧ (node.pBreadcrumbContexts v).BreadcrumbIndex = k
        ∧ ∀ j : Int, v < j → j < node.BreadcrumbContextsCount →
            (node.pBreadcrumbContexts j).BreadcrumbIndex ≠ k) := by
  rw [getContextTable, getContextTable.loop_spec node _ 0 _ rfl k v]
  simp [ContextTable.empty]

/-- The table of `getContextTable` lacks a key exactly when no entry has it. -/
theorem getContextTable_absent {ω σ : Type} (node : BreadcrumbNode ω σ) (k : Int) :
    getContextTable node k = none ↔
      ∀ i : Int, 0 ≤ i → i < node.BreadcrumbContextsCount →
        (node.pBreadcrumbContexts i).BreadcrumbIndex ≠ k := by
  have h := getContextTable.loop_keys node _ 0 ContextTable.empty rfl k
  have hk : (getContextTable node).hasOwnProperty k = true ↔
      ∃ i : Int, 0 ≤ i ∧ i < node.BreadcrumbContextsCount
        ∧ (node.pBreadcrumbContexts i).BreadcrumbIndex = k := by
    rw [getContextTable, h]
    simp [ContextTable.hasOwnProperty, ContextTable.empty]
  constructor
  · intro hn i h0 h1 h2
    have : (getContextTable node).hasOwnProperty k = true := hk.mpr ⟨i, h0, h1, h2⟩
    simp [ContextTable.hasOwnProperty, hn] at this
  · intro hall
    by_contra hne
    have hs : (getContextTable node).hasOwnProperty k = true := by
      simp only [ContextTable.hasOwnProperty]
      exact Option.isSome_iff_ne_none.mpr hne
    obtain ⟨i, h0, h1, h2⟩ := hk.mp hs
    exact hall i h0 h1 h2

/-- The annotation `readBreadcrumbOp` attaches when the table has the subscript. -/
theorem readBreadcrumbOp_context_some {ω σ : Type} (node : BreadcrumbNode ω σ)
    (t : ContextTable) (index j : Int) (h : t index = some j) :
    (readBreadcrumbOp node t index).context = some (node.pBreadcrumbContexts j).pContextString := by
  simp [readBreadcrumbOp, ContextTable.hasOwnProperty, h]

/-- No annotation is attached when the table lacks the subscript. -/
theorem readBreadcrumbOp_context_none {ω σ : Type} (node : BreadcrumbNode ω σ)
    (t : ContextTable) (index : Int) (h : t index = none) :
    (readBreadcrumbOp node t index).context = none := by
  simp [readBreadcrumbOp, ContextTable.hasOwnProperty, h]

/-- The object has a key exactly when reading the key gives a value. -/
theorem OpStrings.hasOwnProperty_eq_isSome (o : OpStrings) (key : Int) :
    OpStrings.hasOwnProperty o key = (OpStrings.get o key).isSome := by
  induction o with
  | nil => rfl
  | cons p rest ih =>
    simp only [OpStrings.hasOwnProperty, OpStrings.get, List.any_cons, List.find?_cons] at ih ⊢
    by_cases h : (p.1 == key) = true
    · simp [h]
    · have hf : (p.1 == key) = false := by simpa using h
      simp only [hf, Bool.false_or]
      exact ih

/-- Reading a key after an assignment. -/
theorem OpStrings.get_set (o : OpStrings) (key : Int) (value : String) (k : Int) :
    OpStrings.get (OpStrings.set o key value) k
      = if k = key then some value else OpStrings.get o k := by
  by_cases h : k = key
  · subst h
    simp [OpStrings.get, OpStrings.set]
  · have hk : (key == k) = false := by
      simp only [beq_eq_false_iff_ne, ne_eq]
      exact fun e => h e.symm
    simp only [OpStrings.get, OpStrings.set, List.find?_cons, hk, if_neg h, List.find?_filter]
    congr 2
    funext a
    by_cases ha : a.1 = key
    · have : ¬ a.1 = k := fun e => h (e.symm.trans ha)
      simp [ha, this, h]
      exact fun e => h e.symm
    · by_cases hak : a.1 = k <;> simp [ha, hak, h]

/-- What the dictionary holds under a key after the loop of lines 18-22: the name of the
last enumerant with that value, or else what it held before. -/
theorem getEnumString.get_build (fields : List (String × Int)) :
    ∀ (o : OpStrings) (k : Int),
      OpStrings.get (getEnumString.build fields o) k
        = match fields.reverse.find? (fun f => f.2 == k) with
          | some f => some f.1
          | none => OpStrings.get o k := by
  induction fields with
  | nil =>
    intro o k
    rfl
  | cons f rest ih =>
    intro o k
    have hb : getEnumString.build (f :: rest) o
        = getEnumString.build rest (OpStrings.set o f.2 f.1) := rfl
    rw [hb, ih, List.reverse_cons, List.find?_append, OpStrings.get_set]
    cases hr : List.find? (fun f => f.2 == k) rest.reverse with
    | some g => rfl
    | none =>
      by_cases hk : k = f.2
      · subst hk
        simp
      · have hk2 : (f.2 == k) = false := by
          simp only [beq_eq_false_iff_ne, ne_eq]
          exact fun e => hk e.symm
        simp [hk, hk2]

/-- The loop of lines 18-22 leaves a dictionary with a key as soon as there is an
enumerant or there was a key before. -/
theorem getEnumString.build_ne_nil (fields : List (String × Int)) :
    ∀ o : OpStrings, (fields ≠ [] ∨ o ≠ []) → getEnumString.build fields o ≠ [] := by
  induction fields with
  | nil =>
    intro o h
    rcases h with h | h
    · exact absurd rfl h
    · exact h
  | cons f rest ih =>
    intro o _
    have hb : getEnumString.build (f :: rest) o
        = getEnumString.build rest (OpStrings.set o f.2 f.1) := rfl
    rw [hb]
    exact ih _ (Or.inr (by simp [OpStrings.set]))

/-- The dictionary `getEnumString` hands back: built when it had no key, else as it
was. -/
theorem getEnumString_cache (c : OpStrings) (v : Int) (S : EnumType) :
    (getEnumString c v S).2 = if c = [] then getEnumString.build S.fields c else c := by
  have hk : (c.keys.length == 0) = decide (c = []) := by
    cases c with
    | nil => rfl
    | cons p rest => simp [OpStrings.keys]
  simp only [getEnumString, hk]
  by_cases hc : c = []
  · simp only [hc, decide_True, if_true]
    split
    · split <;> rfl
    · rfl
  · simp only [hc, decide_False, if_false, Bool.false_eq_true]
    split
    · split <;> rfl
    · rfl

/-- The name `getEnumString` returns is read from the dictionary it hands back. -/
theorem getEnumString_name (c : OpStrings) (v : Int) (S : EnumType) :
    (getEnumString c v S).1
      = match OpStrings.get (getEnumString c v S).2 v with
        | some name => name
        | none => "Unknown" := by
  rw [getEnumString_cache]
  simp only [getEnumString, OpStrings.hasOwnProperty_eq_isSome]
  have hk : (c.keys.length == 0) = decide (c = []) := by
    cases c with
    | nil => rfl
    | cons p rest => simp [OpStrings.keys]
  rw [hk]
  by_cases hc : c = []
  · simp only [hc, decide_True, if_true]
    cases hg : OpStrings.get (getEnumString.build S.fields []) v with
    | none => simp
    | some name => simp
  · simp only [hc, decide_False, if_false, Bool.false_eq_true]
    cases hg : OpStrings.get c v with
    | none => simp
    | some name => simp

/-- A second call with the same enumeration type leaves the dictionary as the first call
left it. -/
theorem getEnumString_cache_stable (c : OpStrings) (v w : Int) (S : EnumType) :
    (getEnumString (getEnumString c v S).2 w S).2 = (getEnumString c v S).2 := by
  rw [getEnumString_cache (getEnumString c v S).2 w S]
  by_cases h : (getEnumString c v S).2 = []
  · rw [if_pos h, h]
    rw [getEnumString_cache] at h
    by_cases hc : c = []
    · rw [if_pos hc, hc] at h
      exact h
    · rw [if_neg hc] at h
      exact absurd h hc
  · rw [if_neg h]

/-- After any number of calls with one enumeration type the dictionary is as the first
of them left it. -/
theorem getEnumString.cacheAfter_same_type (S : EnumType) :
    ∀ (vs : List Int) (c : OpStrings) (v : Int),
      getEnumString.cacheAfter c ((v :: vs).map (fun u => (u, S))) = (getEnumString c v S).2 := by
  intro vs
  induction vs with
  | nil =>
    intro c v
    rfl
  | cons w rest ih =>
    intro c v
    have hstep : getEnumString.cacheAfter c ((v :: w :: rest).map (fun u => (u, S)))
        = getEnumString.cacheAfter (getEnumString c v S).2 ((w :: rest).map (fun u => (u, S))) :=
      rfl
    rw [hstep, ih, getEnumString_cache_stable]

/-- The name the fresh dictionary gives for a value that the enumeration declares: the
name of the last enumerant with that value. -/
theorem getEnumString_fresh_declared (S : EnumType) (v : Int) (pre post : List (String × Int))
    (name : String) (hS : S.fields = pre ++ (name, v) :: post) (hpost : ∀ f ∈ post, f.2 ≠ v) :
    (getEnumString [] v S).1 = name := by
  rw [getEnumString_name, getEnumString_cache, if_pos rfl, getEnumString.get_build, hS]
  have hnone : List.find? (fun f : String × Int => f.2 == v) post.reverse = none := by
    rw [List.find?_eq_none]
    intro f hf
    have := hpost f (List.mem_reverse.mp hf)
    simpa using this
  simp [List.find?_append, hnone]

/-- The fresh dictionary gives `Unknown` for a value the enumeration does not declare. -/
theorem getEnumString_fresh_undeclared (S : EnumType) (v : Int)
    (hS : ∀ f ∈ S.fields, f.2 ≠ v) :
    (getEnumString [] v S).1 = "Unknown" := by
  rw [getEnumString_name, getEnumString_cache, if_pos rfl, getEnumString.get_build]
  have hnone : List.find? (fun f : String × Int => f.2 == v) S.fields.reverse = none := by
    rw [List.find?_eq_none]
    intro f hf
    have := hS f (List.mem_reverse.mp hf)
    simpa using this
  rw [hnone]
  rfl

/-- A call that finds the dictionary as an earlier call with the same enumeration type
left it returns what a call on the fresh dictionary returns. -/
theorem getEnumString_name_after (S : EnumType) (u v : Int) :
    (getEnumString (getEnumString [] u S).2 v S).1 = (getEnumString [] v S).1 := by
  rw [getEnumString_name, getEnumString_cache_stable, getEnumString_name (c := [])]
  rw [getEnumString_cache, getEnumString_cache]

/-- The loop over the modules returns the data of the first module whose layout casts
the address, and `null` when none does. -/
theorem entryPoint_loop_first {δ0 δ1 δ2 δ3 : Type} (host : Host δ0 δ1 δ2 δ3) (x : Option Nat) :
    ∀ (modules : List String) (symbolSource : String),
      (__d3d12DeviceRemovedExtendedData.loop host x symbolSource modules).2
        = modules.findSome? (fun m => (castAndDispatch host x m).toOption) := by
  intro modules
  induction modules with
  | nil =>
    intro symbolSource
    rfl
  | cons m rest ih =>
    intro symbolSource
    rw [__d3d12DeviceRemovedExtendedData.loop, List.findSome?_cons]
    cases hc : castAndDispatch host x m with
    | error e =>
      simp only [Except.toOption]
      exact ih m
    | ok data => rfl

/-! ## The claims -/

/-- C1 (the code departs from the claim): the claim says that entry `k` of the completed
view is read from slot `(completed - k - 1) mod capacity`. With 15360 operations issued
and 15361 reported complete, entry 0 is read at subscript 15360, one past the last slot,
while `15360 mod 15360 = 0`; line 100 does not reduce the index as line 143 does. With
15361 issued and 15361 complete the loop of lines 98-109 would read subscript 15360 as
well, and the view yields no entry at all because line 90 throws first. In the scenario
of the specification (capacity 4, issued 10, completed 6) the loop uses the subscripts
5, 4, 3, 2 and not 1, 0, 3, 2, and the view again yields nothing. -/
theorem C1_completed_slot_not_reduced :
    (CompletedOps.iterator (CompletedOps.new (plainNode 15360 15361))).yielded.head?
        = some (Yield.mk 0 15360 (BreadcrumbOp.mk 15360 none))
    ∧ (15361 - 0 - 1 : Int) % AutoBreadcrumbsCommandHistoryMax = 0
    ∧ readBreadcrumbOp (plainNode 15360 15361) (getContextTable (plainNode 15360 15361)) 0
        = BreadcrumbOp.mk 0 none
    ∧ (CompletedOps.loop AutoBreadcrumbsCommandHistoryMax (CompletedOps.new (plainNode 15361 15361))
        (getContextTable (plainNode 15361 15361)) 0).head?
        = some (Yield.mk 0 15360 (BreadcrumbOp.mk 15360 none))
    ∧ (CompletedOps.iterator (CompletedOps.new (plainNode 15361 15361))).yielded = []
    ∧ (CompletedOps.iterator (CompletedOps.new (plainNode 15361 15361))).thrown
        = some "ReferenceError: max is not defined"
    ∧ (CompletedOps.loop 4 (CompletedOps.new scenarioNode) (getContextTable scenarioNode) 0).map
        (fun y => y.index) = [5, 4, 3, 2]
    ∧ (CompletedOps.iteratorWith 4 (CompletedOps.new scenarioNode)).yielded = [] := by
  have hcap : AutoBreadcrumbsCommandHistoryMax = 15360 := by decide
  have htab : ∀ issued completed : Int,
      getContextTable (plainNode issued completed) = ContextTable.empty := by
    intro issued completed
    rw [getContextTable, getContextTable.loop]
    simp [plainNode]
  have hread : ∀ (issued completed index : Int),
      readBreadcrumbOp (plainNode issued completed) ContextTable.empty index
        = BreadcrumbOp.mk index none := by
    intro issued completed index
    simp [readBreadcrumbOp, plainNode, ContextTable.hasOwnProperty, ContextTable.empty]
  refine ⟨?_, ?_, ?_, ?_, ?_, ?_, ?_, ?_⟩
  · rw [CompletedOps.iterator, CompletedOps.iteratorWith_fits _ _ (by rw [hcap]; decide)]
    simp only [CompletedOps.new]
    rw [CompletedOps.loop, hcap, htab]
    simp [plainNode, readBreadcrumbOp, ContextTable.hasOwnProperty, ContextTable.empty]
  · rw [hcap]; decide
  · rw [htab, hread]
  · simp only [CompletedOps.new]
    rw [CompletedOps.loop, hcap, htab]
    simp [plainNode, readBreadcrumbOp, ContextTable.hasOwnProperty, ContextTable.empty]
  · rw [CompletedOps.iterator, CompletedOps.iteratorWith_overflow _ _ (by rw [hcap]; decide)]
  · rw [CompletedOps.iterator, CompletedOps.iteratorWith_overflow _ _ (by rw [hcap]; decide)]
  · rw [CompletedOps.loop_closed_form 4 _ _ 4 0 (by decide)]
    decide
  · rw [CompletedOps.iteratorWith_overflow 4 _ (by decide)]

/-- C2 (the code departs from the claim): the claim says that with the issued counter
above the capacity the completed view logs the two drop counts and goes on to yield its
entries. With 20000 operations issued and 16000 complete the view logs only the line of
line 88 and then ends with the `ReferenceError` of line 90, where `max` is called as a
free identifier (line 137 calls `Math.max`); no count is logged and nothing is yielded. -/
theorem C2_completed_overflow_throws :
    CompletedOps.iterator (CompletedOps.new (plainNode 20000 16000)) =
      Run.mk ["Number of command operations exceeds 15360, the capacity of the AutoBreadcrumb command history"]
        [] (some "ReferenceError: max is not defined") := by
  have hcap : AutoBreadcrumbsCommandHistoryMax = 15360 := by decide
  rw [CompletedOps.iterator, CompletedOps.iteratorWith_overflow _ _ (by rw [hcap]; decide), hcap]
  rfl

/-- C3: with `0 <= completed <= issued` (and a positive capacity) the outstanding view
does not throw and yields exactly the entries for the logical indices `start`,
`start + 1`, ..., `issued - 1` in ascending order, where
`start = max(completed, issued - capacity)`, each read from slot
`logical index mod capacity`; so it yields `min(issued - completed, capacity)` entries,
never more than the capacity. -/
theorem C3_outstanding_view {ω σ : Type} (cap : Int) (node : BreadcrumbNode ω σ)
    (hcap : 0 < cap) (h0 : 0 ≤ node.pLastBreadcrumbValue)
    (h1 : node.pLastBreadcrumbValue ≤ node.BreadcrumbCount) :
    (OutstandingOps.iteratorWith cap (OutstandingOps.new node)).thrown = none
    ∧ (OutstandingOps.iteratorWith cap (OutstandingOps.new node)).yielded =
        (List.range (node.BreadcrumbCount
            - max node.pLastBreadcrumbValue (node.BreadcrumbCount - cap)).toNat).map
          (fun j : Nat =>
            Yield.mk (max node.pLastBreadcrumbValue (node.BreadcrumbCount - cap) + j)
              ((max node.pLastBreadcrumbValue (node.BreadcrumbCount - cap) + j) % cap)
              (readBreadcrumbOp node (getContextTable node)
                ((max node.pLastBreadcrumbValue (node.BreadcrumbCount - cap) + j) % cap)))
    ∧ ((OutstandingOps.iteratorWith cap (OutstandingOps.new node)).yielded.length : Int)
        = min (node.BreadcrumbCount - node.pLastBreadcrumbValue) cap
    ∧ ((OutstandingOps.iteratorWith cap (OutstandingOps.new node)).yielded.length : Int)
        ≤ cap := by
  have hy : (OutstandingOps.iteratorWith cap (OutstandingOps.new node)).yielded =
      (List.range (node.BreadcrumbCount
          - max node.pLastBreadcrumbValue (node.BreadcrumbCount - cap)).toNat).map
        (fun j : Nat =>
          Yield.mk (max node.pLastBreadcrumbValue (node.BreadcrumbCount - cap) + j)
            ((max node.pLastBreadcrumbValue (node.BreadcrumbCount - cap) + j) % cap)
            (readBreadcrumbOp node (getContextTable node)
              ((max node.pLastBreadcrumbValue (node.BreadcrumbCount - cap) + j) % cap))) := by
    simp only [OutstandingOps.iteratorWith, OutstandingOps.new, OutstandingOps.start]
    rw [OutstandingOps.loop_ascending_form cap _ _ _ _ rfl]
    apply List.map_congr_left
    intro j _
    have e : Int.tmod (max node.pLastBreadcrumbValue (node.BreadcrumbCount - cap) + j) cap
        = (max node.pLastBreadcrumbValue (node.BreadcrumbCount - cap) + j) % cap :=
      Int.tmod_eq_emod (by omega) (by omega)
    simp only [e]
  refine ⟨rfl, hy, ?_, ?_⟩
  · rw [hy, List.length_map, List.length_range]
    omega
  · rw [hy, List.length_map, List.length_range]
    omega

/-- The scenario of the specification for C3: capacity 4, issued 10, completed 6 gives
the logical indices 6, 7, 8, 9 read from the slots 2, 3, 0, 1. -/
theorem C3_outstanding_view_witness :
    (0 : Int) < 4 ∧ 0 ≤ scenarioNode.pLastBreadcrumbValue
    ∧ scenarioNode.pLastBreadcrumbValue ≤ scenarioNode.BreadcrumbCount
    ∧ (OutstandingOps.iteratorWith 4 (OutstandingOps.new scenarioNode)).yielded.map
        (fun y => (y.counter, y.index, y.value.op))
        = [(6, 2, 102), (7, 3, 103), (8, 0, 100), (9, 1, 101)] := by
  refine ⟨by decide, by decide, by decide, ?_⟩
  rw [(C3_outstanding_view 4 scenarioNode (by decide) (by decide) (by decide)).2.1]
  decide

set_option maxRecDepth 100000 in
/-- C4 (counterexample): with 20000 operations issued and 1000 completed, 19000 are
outstanding and `dropped` is 3640; the one line the view writes carries `remaining`
(15360) and `outstanding` (19000), and the figure 3640 occurs nowhere in it. -/
theorem C4_dropped_not_written :
    (OutstandingOps.iterator (OutstandingOps.new (plainNode 20000 1000))).log
        = ["Only the last 15360 of 19000 outstanding operations are available\n"]
    ∧ (20000 - 1000 : Int) - AutoBreadcrumbsCommandHistoryMax = 3640
    ∧ ¬ ("3640".toList <:+:
          "Only the last 15360 of 19000 outstanding operations are available\n".toList) := by
  refine ⟨by decide, by decide, by decide⟩

/-- C4 (amended): the outstanding view writes its diagnostic exactly when
`outstanding = issued - completed` exceeds the capacity; the line it then writes carries
two figures, `remaining`, which is the capacity, and `outstanding` (the count `dropped`
only guards the line and is not written). Nothing is written when `issued <= capacity`
and `completed >= 0`. -/
theorem C4_outstanding_diagnostic {ω σ : Type} (cap : Int) (node : BreadcrumbNode ω σ) :
    ((OutstandingOps.iteratorWith cap (OutstandingOps.new node)).log ≠ []
        ↔ node.BreadcrumbCount - node.pLastBreadcrumbValue > cap)
    ∧ (node.BreadcrumbCount - node.pLastBreadcrumbValue > cap →
        (OutstandingOps.iteratorWith cap (OutstandingOps.new node)).log =
          ["Only the last " ++ ToString.toString cap ++ " of "
            ++ ToString.toString (node.BreadcrumbCount - node.pLastBreadcrumbValue)
            ++ " outstanding operations are available\n"])
    ∧ (node.BreadcrumbCount ≤ cap → 0 ≤ node.pLastBreadcrumbValue →
        (OutstandingOps.iteratorWith cap (OutstandingOps.new node)).log = []) := by
  have hd : OutstandingOps.dropped cap (OutstandingOps.new node)
      = (node.BreadcrumbCount - node.pLastBreadcrumbValue) - cap := rfl
  have hr : OutstandingOps.remaining cap (OutstandingOps.new node) = cap := by
    simp only [OutstandingOps.remaining, OutstandingOps.dropped, OutstandingOps.outstanding]
    omega
  have ho : (OutstandingOps.new node).outstanding
      = node.BreadcrumbCount - node.pLastBreadcrumbValue := rfl
  have hlog : (OutstandingOps.iteratorWith cap (OutstandingOps.new node)).log =
      if (node.BreadcrumbCount - node.pLastBreadcrumbValue) - cap > 0 then
        ["Only the last " ++ ToString.toString cap ++ " of "
          ++ ToString.toString (node.BreadcrumbCount - node.pLastBreadcrumbValue)
          ++ " outstanding operations are available\n"]
      else [] := by
    simp only [OutstandingOps.iteratorWith, hd, hr, ho, OutstandingOps.line135]
  refine ⟨?_, ?_, ?_⟩
  · rw [hlog]
    by_cases h : (node.BreadcrumbCount - node.pLastBreadcrumbValue) - cap > 0
    · simp only [if_pos h, ne_eq, List.cons_ne_nil, not_false_eq_true, true_iff]
      omega
    · simp only [if_neg h, ne_eq, not_true_eq_false, false_iff]
      omega
  · intro h
    rw [hlog, if_pos (by omega)]
  · intro h h0
    rw [hlog, if_neg (by omega)]

/-- An instance of the amended C4 at the capacity of the script: 15361 operations
outstanding write the line with 15360 and 15361, and 100 issued with 40 completed write
nothing. -/
theorem C4_outstanding_diagnostic_witness :
    (OutstandingOps.iterator (OutstandingOps.new (plainNode 15400 39))).log =
      ["Only the last 15360 of 15361 outstanding operations are available\n"]
    ∧ (OutstandingOps.iterator (OutstandingOps.new (plainNode 100 40))).log = [] := by
  have hcap : AutoBreadcrumbsCommandHistoryMax = 15360 := by decide
  have h1 := (C4_outstanding_diagnostic AutoBreadcrumbsCommandHistoryMax
    (plainNode 15400 39)).2.1 (by rw [hcap]; decide)
  have h2 := (C4_outstanding_diagnostic AutoBreadcrumbsCommandHistoryMax
    (plainNode 100 40)).2.2 (by rw [hcap]; decide) (by decide)
  refine ⟨?_, h2⟩
  rw [OutstandingOps.iterator, h1, hcap]
  decide

/-- C5: with `issued <= capacity` and `0 <= completed <= issued` the completed view
writes no diagnostic, does not throw, and yields exactly `completed` entries. -/
theorem C5_completed_length {ω σ : Type} (cap : Int) (node : BreadcrumbNode ω σ)
    (h : node.BreadcrumbCount ≤ cap) (h0 : 0 ≤ node.pLastBreadcrumbValue)
    (h1 : node.pLastBreadcrumbValue ≤ node.BreadcrumbCount) :
    (CompletedOps.iteratorWith cap (CompletedOps.new node)).log = []
    ∧ (CompletedOps.iteratorWith cap (CompletedOps.new node)).thrown = none
    ∧ ((CompletedOps.iteratorWith cap (CompletedOps.new node)).yielded.length : Int)
        = node.pLastBreadcrumbValue := by
  have hfit : ¬ (CompletedOps.new node).numOps > cap := by
    simp only [CompletedOps.new]
    omega
  rw [CompletedOps.iteratorWith_fits cap _ hfit]
  refine ⟨rfl, rfl, ?_⟩
  simp only []
  rw [CompletedOps.loop_closed_form cap _ _ _ _ rfl, List.length_map, List.length_range]
  simp only [CompletedOps.new]
  omega

/-- An instance of C5 at the capacity of the script: 8 issued and 6 completed yield 6
entries, and 8 issued with none completed yield none. -/
theorem C5_completed_length_witness :
    ((CompletedOps.iterator (CompletedOps.new (plainNode 8 6))).yielded.length : Int) = 6
    ∧ (CompletedOps.iterator (CompletedOps.new (plainNode 8 6))).log = []
    ∧ (CompletedOps.iterator (CompletedOps.new (plainNode 8 0))).yielded = [] := by
  have hcap : AutoBreadcrumbsCommandHistoryMax = 15360 := by decide
  have h6 := C5_completed_length AutoBreadcrumbsCommandHistoryMax (plainNode 8 6)
    (by rw [hcap]; decide) (by decide) (by decide)
  have h0 := C5_completed_length AutoBreadcrumbsCommandHistoryMax (plainNode 8 0)
    (by rw [hcap]; decide) (by decide) (by decide)
  refine ⟨h6.2.2, h6.1, ?_⟩
  have hl := h0.2.2
  have : (plainNode 8 0).pLastBreadcrumbValue = 0 := rfl
  rw [this] at hl
  exact List.length_eq_zero.mp (by exact_mod_cast hl)

/-- C6: the completed view is in reverse order of issue: whatever the node, the entry it
yields at position `k` was produced at `count = k` with logical index
`completed - k - 1`; the first index is `completed - 1` and the indices decrease
strictly along the view. -/
theorem C6_completed_reverse_order {ω σ : Type} (cap : Int) (node : BreadcrumbNode ω σ) :
    (∀ (k : Nat) (y : Yield ω σ),
        (CompletedOps.iteratorWith cap (CompletedOps.new node)).yielded[k]? = some y →
          y.counter = k ∧ y.index = node.pLastBreadcrumbValue - k - 1
          ∧ y.value = readBreadcrumbOp node (getContextTable node)
              (node.pLastBreadcrumbValue - k - 1))
    ∧ (∀ y : Yield ω σ,
        (CompletedOps.iteratorWith cap (CompletedOps.new node)).yielded.head? = some y →
          y.index = node.pLastBreadcrumbValue - 1)
    ∧ List.Pairwise (fun a b : Yield ω σ => b.index < a.index)
        (CompletedOps.iteratorWith cap (CompletedOps.new node)).yielded := by
  by_cases hov : (CompletedOps.new node).numOps > cap
  · rw [CompletedOps.iteratorWith_overflow cap _ hov]
    simp
  · rw [CompletedOps.iteratorWith_fits cap _ hov]
    simp only []
    rw [CompletedOps.loop_closed_form cap _ _ _ _ rfl]
    have hk : ∀ (k : Nat) (y : Yield ω σ),
        ((List.range (min (CompletedOps.new node).numCompletedOps cap - 0).toNat).map
          (fun j : Nat =>
            Yield.mk (0 + j) ((CompletedOps.new node).numCompletedOps - (0 + j) - 1)
              (readBreadcrumbOp (CompletedOps.new node).node
                (getContextTable (CompletedOps.new node).node)
                ((CompletedOps.new node).numCompletedOps - (0 + j) - 1))))[k]? = some y →
          y.counter = k ∧ y.index = node.pLastBreadcrumbValue - k - 1
          ∧ y.value = readBreadcrumbOp node (getContextTable node)
              (node.pLastBreadcrumbValue - k - 1) := by
      intro k y h
      rw [List.getElem?_map] at h
      by_cases hlt : k < (min (CompletedOps.new node).numCompletedOps cap - 0).toNat
      · rw [List.getElem?_range hlt] at h
        simp only [Option.map_some'] at h
        have hy := (Option.some.inj h).symm
        subst hy
        simp [CompletedOps.new]
      · rw [List.getElem?_eq_none (by rw [List.length_range]; exact Nat.le_of_not_lt hlt)] at h
        simp at h
    refine ⟨hk, ?_, ?_⟩
    · intro y h
      rw [List.head?_eq_getElem?] at h
      have := (hk 0 y h).2.1
      simpa using this
    · rw [List.pairwise_map]
      refine List.Pairwise.imp ?_ (List.pairwise_lt_range _)
      intro a b hab
      simp only
      omega

/-- An instance of C6 at the capacity of the script: with 8 issued and 6 completed the
entry at position 2 exists and has logical index `6 - 2 - 1 = 3`. -/
theorem C6_completed_reverse_order_witness :
    ∃ y : Yield Int Unit,
      (CompletedOps.iterator (CompletedOps.new (plainNode 8 6))).yielded[2]? = some y
      ∧ y.index = 3 := by
  have hcap : AutoBreadcrumbsCommandHistoryMax = 15360 := by decide
  have hfit : ¬ (CompletedOps.new (plainNode 8 6)).numOps > AutoBreadcrumbsCommandHistoryMax := by
    rw [hcap]; decide
  have hex : ∃ y : Yield Int Unit,
      (CompletedOps.iterator (CompletedOps.new (plainNode 8 6))).yielded[2]? = some y := by
    rw [CompletedOps.iterator, CompletedOps.iteratorWith_fits _ _ hfit]
    simp only []
    rw [CompletedOps.loop_closed_form _ _ _ 6 _ (by rw [hcap]; decide)]
    exact ⟨_, rfl⟩
  obtain ⟨y, hy⟩ := hex
  refine ⟨y, hy, ?_⟩
  have h := (C6_completed_reverse_order AutoBreadcrumbsCommandHistoryMax (plainNode 8 6)).1 2 y hy
  rw [h.2.1]
  decide

/-- C7 (counterexample): with no operation issued and one reported complete, the count
that `OutstandingOps` derives is `-1` and the text it reports is `Count: -1`, whereas
`max(0, issued - completed)` is `0`. -/
theorem C7_outstanding_not_clamped :
    (OutstandingOps.new (plainNode 0 1)).outstanding = -1
    ∧ (OutstandingOps.new (plainNode 0 1)).toString = "Count: -1"
    ∧ (OutstandingOps.new (plainNode 0 1)).outstanding ≠ max 0 ((0 : Int) - 1)
    ∧ (OutstandingOps.new (plainNode 0 1)).outstanding < 0 := by
  refine ⟨by decide, by decide, by decide, by decide⟩

/-- C7 (amended): the outstanding count that `OutstandingOps` derives (line 130) and
reports (line 125) is `issued - completed` as it stands; it equals
`max(0, issued - completed)` exactly when `completed <= issued`, and it is negative
exactly when `completed > issued`, in which case the view writes no diagnostic and
yields nothing. -/
theorem C7_outstanding_is_difference {ω σ : Type} (node : BreadcrumbNode ω σ) :
    (OutstandingOps.new node).outstanding = node.BreadcrumbCount - node.pLastBreadcrumbValue
    ∧ (OutstandingOps.new node).toString
        = "Count: " ++ ToString.toString (node.BreadcrumbCount - node.pLastBreadcrumbValue)
    ∧ ((OutstandingOps.new node).outstanding
          = max 0 (node.BreadcrumbCount - node.pLastBreadcrumbValue)
        ↔ node.pLastBreadcrumbValue ≤ node.BreadcrumbCount)
    ∧ ((OutstandingOps.new node).outstanding < 0
        ↔ node.BreadcrumbCount < node.pLastBreadcrumbValue)
    ∧ (node.BreadcrumbCount < node.pLastBreadcrumbValue →
        (OutstandingOps.iterator (OutstandingOps.new node)).log = []
        ∧ (OutstandingOps.iterator (OutstandingOps.new node)).yielded = []
        ∧ (OutstandingOps.iterator (OutstandingOps.new node)).thrown = none) := by
  have ho : (OutstandingOps.new node).outstanding
      = node.BreadcrumbCount - node.pLastBreadcrumbValue := rfl
  have hcap : AutoBreadcrumbsCommandHistoryMax = 15360 := by decide
  refine ⟨ho, rfl, ?_, ?_, ?_⟩
  · rw [ho]; omega
  · rw [ho]; omega
  · intro h
    refine ⟨?_, ?_, rfl⟩
    · have hd : ¬ OutstandingOps.dropped AutoBreadcrumbsCommandHistoryMax
          (OutstandingOps.new node) > 0 := by
        simp only [OutstandingOps.dropped, ho, hcap]
        omega
      simp only [OutstandingOps.iterator, OutstandingOps.iteratorWith, if_neg hd]
    · simp only [OutstandingOps.iterator, OutstandingOps.iteratorWith]
      rw [OutstandingOps.loop]
      have hs : ¬ (OutstandingOps.start AutoBreadcrumbsCommandHistoryMax (OutstandingOps.new node)
          < (OutstandingOps.new node).numOps) := by
        simp only [OutstandingOps.start, OutstandingOps.new]
        omega
      rw [if_neg hs]

/-- An instance of the amended C7: with no operation issued and one reported complete
the view writes nothing and yields nothing. -/
theorem C7_outstanding_is_difference_witness :
    (plainNode 0 1).BreadcrumbCount < (plainNode 0 1).pLastBreadcrumbValue
    ∧ (OutstandingOps.iterator (OutstandingOps.new (plainNode 0 1))).log = []
    ∧ (OutstandingOps.iterator (OutstandingOps.new (plainNode 0 1))).yielded = [] :=
  ⟨by decide,
   ((C7_outstanding_is_difference (plainNode 0 1)).2.2.2.2 (by decide)).1,
   ((C7_outstanding_is_difference (plainNode 0 1)).2.2.2.2 (by decide)).2.1⟩

/-- C8: for every node and key `k`, the table that `getContextTable` returns has the key
`k` exactly when one of the first `BreadcrumbContextsCount` annotation entries has
`BreadcrumbIndex = k`, and the value under `k` is the position of the last such entry. -/
theorem C8_context_table_last_wins {ω σ : Type} (node : BreadcrumbNode ω σ) (k : Int) :
    ((getContextTable node).hasOwnProperty k = true ↔
        ∃ i : Int, 0 ≤ i ∧ i < node.BreadcrumbContextsCount
          ∧ (node.pBreadcrumbContexts i).BreadcrumbIndex = k)
    ∧ (∀ v : Int, getContextTable node k = some v ↔
        (0 ≤ v ∧ v < node.BreadcrumbContextsCount
          ∧ (node.pBreadcrumbContexts v).BreadcrumbIndex = k
          ∧ ∀ j : Int, v < j → j < node.BreadcrumbContextsCount →
              (node.pBreadcrumbContexts j).BreadcrumbIndex ≠ k)) := by
  constructor
  · rw [getContextTable, getContextTable.loop_keys node _ 0 _ rfl k]
    simp [ContextTable.hasOwnProperty, ContextTable.empty]
  · intro v
    rw [getContextTable, getContextTable.loop_spec node _ 0 _ rfl k v]
    simp [ContextTable.empty]

/-- An instance of C8 on the scenario node, whose entries carry the indices 2, 0, 2: key
2 maps to position 2 (the later of the two entries), key 0 to position 1, and key 1 is
absent. -/
theorem C8_context_table_last_wins_witness :
    getContextTable scenarioNode 2 = some 2
    ∧ getContextTable scenarioNode 0 = some 1
    ∧ (getContextTable scenarioNode).hasOwnProperty 1 = false := by
  have hidx : ∀ j : Int, (scenarioNode.pBreadcrumbContexts j).BreadcrumbIndex
      = if j = 0 then 2 else if j = 1 then 0 else 2 := by
    intro j
    simp only [scenarioNode]
    split_ifs <;> rfl
  have hcount : scenarioNode.BreadcrumbContextsCount = 3 := rfl
  refine ⟨?_, ?_, ?_⟩
  · refine ((C8_context_table_last_wins scenarioNode 2).2 2).mpr ⟨by decide, by decide, by decide, ?_⟩
    intro j h1 h2
    rw [hcount] at h2
    omega
  · refine ((C8_context_table_last_wins scenarioNode 0).2 1).mpr ⟨by decide, by decide, by decide, ?_⟩
    intro j h1 h2
    rw [hcount] at h2
    have : j = 2 := by omega
    subst this
    decide
  · have h := (C8_context_table_last_wins scenarioNode 1).1
    rw [Bool.eq_false_iff]
    intro hp
    obtain ⟨i, h0, h1, h2⟩ := h.mp hp
    rw [hcount] at h1
    rw [hidx] at h2
    split_ifs at h2 <;> omega

/-- C9: the getter `Data` returns (and never throws) the variant `Dred_1_0`, `Dred_1_1`,
`Dred_1_2`, `Dred_1_3` for the tag 1, 2, 3, 4, and for every other tag it returns the
error object made by `Error("Invalid or corrupt version data")`. -/
theorem C9_version_dispatch {δ0 δ1 δ2 δ3 : Type}
    (this : VersionedDeviceRemovedExtendedData δ0 δ1 δ2 δ3) :
    (this.Version = 1 → VersionedDeviceRemovedExtendedDataVis.Data this
        = Except.ok (DataValue.Dred_1_0 this.Dred_1_0))
    ∧ (this.Version = 2 → VersionedDeviceRemovedExtendedDataVis.Data this
        = Except.ok (DataValue.Dred_1_1 this.Dred_1_1))
    ∧ (this.Version = 3 → VersionedDeviceRemovedExtendedDataVis.Data this
        = Except.ok (DataValue.Dred_1_2 this.Dred_1_2))
    ∧ (this.Version = 4 → VersionedDeviceRemovedExtendedDataVis.Data this
        = Except.ok (DataValue.Dred_1_3 this.Dred_1_3))
    ∧ (this.Version ≠ 1 → this.Version ≠ 2 → this.Version ≠ 3 → this.Version ≠ 4 →
        VersionedDeviceRemovedExtendedDataVis.Data this
          = Except.ok (DataValue.Error "Invalid or corrupt version data")) := by
  refine ⟨?_, ?_, ?_, ?_, ?_⟩
  · intro h
    simp [VersionedDeviceRemovedExtendedDataVis.Data, h]
  · intro h
    simp [VersionedDeviceRemovedExtendedDataVis.Data, h]
  · intro h
    simp [VersionedDeviceRemovedExtendedDataVis.Data, h]
  · intro h
    simp [VersionedDeviceRemovedExtendedDataVis.Data, h]
  · intro h1 h2 h3 h4
    simp [VersionedDeviceRemovedExtendedDataVis.Data, h1, h2, h3, h4]

/-- Instances of C9: the tags 3, 0 and 5. -/
theorem C9_version_dispatch_witness :
    VersionedDeviceRemovedExtendedDataVis.Data
        (VersionedDeviceRemovedExtendedData.mk 3 "a" "b" "c" "d")
      = Except.ok (DataValue.Dred_1_2 "c")
    ∧ VersionedDeviceRemovedExtendedDataVis.Data
        (VersionedDeviceRemovedExtendedData.mk 0 "a" "b" "c" "d")
      = Except.ok (DataValue.Error "Invalid or corrupt version data")
    ∧ VersionedDeviceRemovedExtendedDataVis.Data
        (VersionedDeviceRemovedExtendedData.mk 5 "a" "b" "c" "d")
      = Except.ok (DataValue.Error "Invalid or corrupt version data") :=
  ⟨(C9_version_dispatch (VersionedDeviceRemovedExtendedData.mk 3 "a" "b" "c" "d")).2.2.1 rfl,
   (C9_version_dispatch (VersionedDeviceRemovedExtendedData.mk 0 "a" "b" "c" "d")).2.2.2.2
     (by decide) (by decide) (by decide) (by decide),
   (C9_version_dispatch (VersionedDeviceRemovedExtendedData.mk 5 "a" "b" "c" "d")).2.2.2.2
     (by decide) (by decide) (by decide) (by decide)⟩

/-- C10: for a chain that reaches null (an acyclic chain) whose addresses in link order
are `l`, the flattener yields exactly `l`, given fuel for `l.length` elements: a null
head yields the empty sequence and `A → B → C → null` yields `[A, B, C]`. -/
theorem C10_flatten_link_order (pNext : Nat → Nat) (headNode : Nat) (l : List Nat)
    (h : IsChain pNext headNode l) (fuel : Nat) (hf : l.length ≤ fuel) :
    (LinkedDredNodesToArray.new pNext fuel headNode).map LinkedDredNodesToArray.iterator
      = some l := by
  cases l with
  | nil =>
    have h0 : headNode = 0 := h
    simp [LinkedDredNodesToArray.new, LinkedDredNodesToArray.iterator, isNull, h0]
  | cons a rest =>
    have ha : headNode = a := h.1
    have ha0 : a ≠ 0 := h.2.1
    subst ha
    have hfl := Flatten_chain pNext rest headNode fuel h (by simpa using hf)
    simp [LinkedDredNodesToArray.new, LinkedDredNodesToArray.iterator, isNull, ha0, hfl]

/-- Instances of C10: the chain `16 → 32 → 48 → null` yields `[16, 32, 48]`, and a null
head yields the empty sequence. -/
theorem C10_flatten_link_order_witness :
    IsChain chainMemory 16 [16, 32, 48]
    ∧ (LinkedDredNodesToArray.new chainMemory 3 16).map LinkedDredNodesToArray.iterator
        = some [16, 32, 48]
    ∧ (LinkedDredNodesToArray.new chainMemory 0 0).map LinkedDredNodesToArray.iterator
        = some [] := by
  have hc : IsChain chainMemory 16 [16, 32, 48] := by
    simp [IsChain, chainMemory]
  exact ⟨hc, C10_flatten_link_order chainMemory 16 [16, 32, 48] hc 3 (by decide),
    C10_flatten_link_order chainMemory 0 [] rfl 0 (by decide)⟩

/-! ## The later claims -/

/-- C11 (counterexample): on the cycle `16 → 32 → 16` nothing in the script ends the
walk: the projector of lines 213-214 answers with the next node at both nodes, never with
`null`, and the constructor hands back whatever the host's `Flatten` makes of that,
adding no bound of its own; when the host's `Flatten` is the plain tree walk, the
constructor never finishes, whatever fuel it is given. -/
theorem C11_cycle_not_bounded_by_script :
    LinkedDredNodesToArray.projector cycleMemory 16 = some [32]
    ∧ LinkedDredNodesToArray.projector cycleMemory 32 = some [16]
    ∧ (∀ flatten : (Nat → Option (List Nat)) → List Nat → Option (List Nat),
        (LinkedDredNodesToArray.newWith flatten cycleMemory 16).map
            LinkedDredNodesToArray.iterator
          = flatten (LinkedDredNodesToArray.projector cycleMemory) [16])
    ∧ ¬ ∃ fuel : Nat, (LinkedDredNodesToArray.new cycleMemory fuel 16).isSome = true := by
  refine ⟨by decide, by decide, ?_, ?_⟩
  · intro flatten
    have h16 : isNull 16 = false := by decide
    simp only [LinkedDredNodesToArray.newWith, h16, Bool.not_false, if_true, Option.map_map]
    cases flatten (LinkedDredNodesToArray.projector cycleMemory) [16] <;> rfl
  · rintro ⟨fuel, h⟩
    simp [LinkedDredNodesToArray.new, isNull, (Flatten_cycle_never_ends fuel).1] at h

/-- C11 (amended): the script's chain flattening has no cap and no cycle detection of
its own. Whatever the host's `Flatten` is, a null head gives the empty sequence, any
other head gives exactly the sequence the host's `Flatten` returns for it, and the
projector gives the next node until `pNext` is null. So whether the sequence is finite
on a chain with a cycle is decided by the host alone: on `16 → 32 → 16` the constructor
never finishes over the plain tree walk and finishes over a walk that caps itself. -/
theorem C11_termination_left_to_host
    (flatten : (Nat → Option (List Nat)) → List Nat → Option (List Nat))
    (pNext : Nat → Nat) (headNode : Nat) :
    (headNode = 0 →
        (LinkedDredNodesToArray.newWith flatten pNext headNode).map
          LinkedDredNodesToArray.iterator = some [])
    ∧ (headNode ≠ 0 →
        (LinkedDredNodesToArray.newWith flatten pNext headNode).map
            LinkedDredNodesToArray.iterator
          = flatten (LinkedDredNodesToArray.projector pNext) [headNode])
    ∧ (∀ a : Nat, pNext a ≠ 0 → LinkedDredNodesToArray.projector pNext a = some [pNext a])
    ∧ (∀ a : Nat, pNext a = 0 → LinkedDredNodesToArray.projector pNext a = none)
    ∧ (∀ fuel : Nat,
        LinkedDredNodesToArray.newWith (fun c r => Flatten c fuel r) cycleMemory 16 = none)
    ∧ (LinkedDredNodesToArray.newWith (fun c r => some (FlattenCapped c 5 r)) cycleMemory 16).map
          LinkedDredNodesToArray.iterator
        = some [16, 32, 16, 32, 16] := by
  refine ⟨?_, ?_, ?_, ?_, ?_, ?_⟩
  · intro h0
    simp [LinkedDredNodesToArray.newWith, LinkedDredNodesToArray.iterator, isNull, h0]
  · intro h0
    have hn : isNull headNode = false := by simp [isNull, h0]
    simp only [LinkedDredNodesToArray.newWith, hn, Bool.not_false, if_true, Option.map_map]
    cases flatten (LinkedDredNodesToArray.projector pNext) [headNode] <;> rfl
  · intro a ha
    simp [LinkedDredNodesToArray.projector, isNull, ha]
  · intro a ha
    simp [LinkedDredNodesToArray.projector, isNull, ha]
  · intro fuel
    simp [LinkedDredNodesToArray.newWith, isNull, (Flatten_cycle_never_ends fuel).1]
  · decide

/-- Instances of the amended C11 over the plain tree walk: a null head gives the empty
sequence, and the chain `16 → 32 → 48 → null` gives what the walk returns for it. -/
theorem C11_termination_left_to_host_witness :
    (LinkedDredNodesToArray.newWith (fun c r => Flatten c 3 r) chainMemory 0).map
        LinkedDredNodesToArray.iterator = some []
    ∧ (LinkedDredNodesToArray.newWith (fun c r => Flatten c 3 r) chainMemory 16).map
        LinkedDredNodesToArray.iterator = some [16, 32, 48] := by
  refine ⟨(C11_termination_left_to_host (fun c r => Flatten c 3 r) chainMemory 0).1 rfl, ?_⟩
  rw [(C11_termination_left_to_host (fun c r => Flatten c 3 r) chainMemory 16).2.1 (by decide)]
  decide

/-- C12: `SelectNameHelper` returns the narrow pointer when that is not null, and
otherwise the wide pointer, which is the null result when both are null. -/
theorem C12_select_name (pNameA pNameW : NamePointer) :
    (pNameA.isNull = false → SelectNameHelper pNameA pNameW = pNameA)
    ∧ (pNameA.isNull = true → SelectNameHelper pNameA pNameW = pNameW)
    ∧ (pNameA.isNull = true → pNameW.isNull = true →
        (SelectNameHelper pNameA pNameW).isNull = true) := by
  refine ⟨?_, ?_, ?_⟩
  · intro h
    simp [SelectNameHelper, h]
  · intro h
    simp [SelectNameHelper, h]
  · intro h hw
    simp [SelectNameHelper, h, hw]

/-- Instances of C12: `select(null, X) = X`, `select(X, Y) = X`, and `select(null, null)`
is null. -/
theorem C12_select_name_witness :
    SelectNameHelper (NamePointer.mk false 0) (NamePointer.mk true 512) = NamePointer.mk true 512
    ∧ SelectNameHelper (NamePointer.mk false 256) (NamePointer.mk true 512)
        = NamePointer.mk false 256
    ∧ (SelectNameHelper (NamePointer.mk false 0) (NamePointer.mk true 0)).isNull = true :=
  ⟨(C12_select_name (NamePointer.mk false 0) (NamePointer.mk true 512)).2.1 rfl,
   (C12_select_name (NamePointer.mk false 256) (NamePointer.mk true 512)).1 rfl,
   (C12_select_name (NamePointer.mk false 0) (NamePointer.mk true 0)).2.2 rfl rfl⟩

/-- C13 (counterexample): after one call with a first enumeration, the second
enumeration's declared value 2 resolves to `Unknown` and not to its declared name, and
the value 1, which the second enumeration does not declare, resolves to a name of the
first one and not to `Unknown`. -/
theorem C13_declared_value_unknown_after_other_type :
    ("D3D12_DRED_ALLOCATION_TYPE_HEAP", (2 : Int)) ∈ allocationEnum.fields
    ∧ (getEnumString (getEnumString.cacheAfter [] [(1, opEnum)]) 2 allocationEnum).1 = "Unknown"
    ∧ (∀ f ∈ allocationEnum.fields, f.2 ≠ 1)
    ∧ (getEnumString (getEnumString.cacheAfter [] [(1, opEnum)]) 1 allocationEnum).1
        = "D3D12_AUTO_BREADCRUMB_OP_BEGINEVENT" := by
  refine ⟨by decide, by decide, by decide, by decide⟩

/-- C13 (amended): `getEnumString` always returns a name. On first use, and after any
earlier calls with the same enumeration type, it returns for a raw value that the type
declares the name of the enumerant with that value (of the last one, should several
share the value), and `Unknown` for a raw value the type does not declare. -/
theorem C13_enum_name (S : EnumType) (vs : List Int) (v : Int) :
    (∀ (pre post : List (String × Int)) (name : String),
        S.fields = pre ++ (name, v) :: post → (∀ f ∈ post, f.2 ≠ v) →
          (getEnumString (getEnumString.cacheAfter [] (vs.map (fun u => (u, S)))) v S).1 = name)
    ∧ ((∀ f ∈ S.fields, f.2 ≠ v) →
        (getEnumString (getEnumString.cacheAfter [] (vs.map (fun u => (u, S)))) v S).1
          = "Unknown") := by
  have hfresh : (getEnumString (getEnumString.cacheAfter [] (vs.map (fun u => (u, S)))) v S).1
      = (getEnumString [] v S).1 := by
    cases vs with
    | nil => rfl
    | cons u rest =>
      rw [getEnumString.cacheAfter_same_type, getEnumString_name_after]
  rw [hfresh]
  exact ⟨fun pre post name hS hpost => getEnumString_fresh_declared S v pre post name hS hpost,
    fun hS => getEnumString_fresh_undeclared S v hS⟩

/-- Instances of the amended C13 on an enumeration with the values 0 and 1: after two earlier calls
the value 1 resolves to its declared name and the value 7 to `Unknown`. -/
theorem C13_enum_name_witness :
    (getEnumString (getEnumString.cacheAfter [] ([0, 5].map (fun u => (u, opEnum)))) 1 opEnum).1
        = "D3D12_AUTO_BREADCRUMB_OP_BEGINEVENT"
    ∧ (getEnumString (getEnumString.cacheAfter [] ([0, 5].map (fun u => (u, opEnum)))) 7 opEnum).1
        = "Unknown" :=
  ⟨(C13_enum_name opEnum [0, 5] 1).1 [("D3D12_AUTO_BREADCRUMB_OP_SETMARKER", 0)] []
      "D3D12_AUTO_BREADCRUMB_OP_BEGINEVENT" rfl (by simp),
   (C13_enum_name opEnum [0, 5] 7).2 (by decide)⟩

/-- C14 (counterexample): after one resolution against a first enumeration, the value 0
resolved against a second enumeration gives the name the first one declares, and the
value 2, which the second one declares, gives `Unknown`; from a fresh dictionary the
second enumeration gives its own names. -/
theorem C14_cache_not_keyed_by_schema :
    (getEnumString (getEnumString.cacheAfter [] [(0, opEnum)]) 0 allocationEnum).1
        = "D3D12_AUTO_BREADCRUMB_OP_SETMARKER"
    ∧ (getEnumString [] 0 allocationEnum).1 = "D3D12_DRED_ALLOCATION_TYPE_COMMAND_QUEUE"
    ∧ (getEnumString (getEnumString.cacheAfter [] [(0, opEnum)]) 0 allocationEnum).1
        ≠ (getEnumString [] 0 allocationEnum).1
    ∧ (getEnumString (getEnumString.cacheAfter [] [(0, opEnum)]) 2 allocationEnum).1 = "Unknown"
    ∧ (getEnumString [] 2 allocationEnum).1 = "D3D12_DRED_ALLOCATION_TYPE_HEAP" := by
  refine ⟨by decide, by decide, by decide, by decide, by decide⟩

/-- C14 (amended): the dictionary is one table for the whole process and is not keyed by
the enumeration type: once a resolution against a type `S1` with at least one enumerant
has filled it, every later resolution of a value `v`, against whatever type `S2`,
returns what `S1` gives for `v` on first use, and leaves the dictionary as it was. -/
theorem C14_cache_answers_from_first_schema (S1 S2 : EnumType) (u : Int) (us : List Int)
    (v : Int) (h : S1.fields ≠ []) :
    (getEnumString (getEnumString.cacheAfter [] ((u :: us).map (fun w => (w, S1)))) v S2).1
        = (getEnumString [] v S1).1
    ∧ (getEnumString (getEnumString.cacheAfter [] ((u :: us).map (fun w => (w, S1)))) v S2).2
        = getEnumString.build S1.fields [] := by
  have hc : getEnumString.cacheAfter [] ((u :: us).map (fun w => (w, S1)))
      = getEnumString.build S1.fields [] := by
    rw [getEnumString.cacheAfter_same_type, getEnumString_cache, if_pos rfl]
  have hne : getEnumString.build S1.fields [] ≠ [] :=
    getEnumString.build_ne_nil S1.fields [] (Or.inl h)
  have h2 : (getEnumString (getEnumString.build S1.fields []) v S2).2
      = getEnumString.build S1.fields [] := by
    rw [getEnumString_cache, if_neg hne]
  refine ⟨?_, ?_⟩
  · rw [hc, getEnumString_name, h2, getEnumString_name (c := []), getEnumString_cache,
      if_pos rfl]
  · rw [hc, h2]

/-- An instance of the amended C14: after two resolutions against the first enumeration,
the value 1 resolved against the second one gives the name the first one declares. -/
theorem C14_cache_answers_from_first_schema_witness :
    opEnum.fields ≠ []
    ∧ (getEnumString (getEnumString.cacheAfter [] ([0, 3].map (fun w => (w, opEnum)))) 1
        allocationEnum).1 = "D3D12_AUTO_BREADCRUMB_OP_BEGINEVENT" := by
  refine ⟨by decide, ?_⟩
  rw [(C14_cache_answers_from_first_schema opEnum allocationEnum 0 [3] 1 (by decide)).1]
  decide

/-- C15: for every enumeration type, every raw value and every state of the dictionary,
only the first of a sequence of calls with that type can fill the dictionary: after any
number of further calls it is as the first call left it, each further call leaves it
unchanged, and the first call on the empty dictionary fills it by the loop of lines
18-22. -/
theorem C15_cache_built_once (S : EnumType) (c : OpStrings) (v : Int) (vs : List Int) :
    getEnumString.cacheAfter c ((v :: vs).map (fun u => (u, S))) = (getEnumString c v S).2
    ∧ (∀ w : Int, (getEnumString (getEnumString c v S).2 w S).2 = (getEnumString c v S).2)
    ∧ (getEnumString [] v S).2 = getEnumString.build S.fields []
    ∧ (c ≠ [] → (getEnumString c v S).2 = c) := by
  refine ⟨getEnumString.cacheAfter_same_type S vs c v,
    fun w => getEnumString_cache_stable c v w S, ?_, ?_⟩
  · rw [getEnumString_cache, if_pos rfl]
  · intro hc
    rw [getEnumString_cache, if_neg hc]

/-- An instance of C15: three calls against an enumeration leave the dictionary with the
two pairs that the first call put there. -/
theorem C15_cache_built_once_witness :
    getEnumString.cacheAfter [] ([1, 0, 9].map (fun u => (u, opEnum)))
      = [(1, "D3D12_AUTO_BREADCRUMB_OP_BEGINEVENT"), (0, "D3D12_AUTO_BREADCRUMB_OP_SETMARKER")] := by
  rw [(C15_cache_built_once opEnum [] 1 [0, 9]).1]
  decide

/-- C16: the entry point takes the address from `d3d12core`, and from `d3d12` only when
`d3d12core` gives `null`; it returns the dispatched data of the first source whose
layout casts the address, trying the module that was asked for the address first and
then the loaded modules in enumeration order; when none does it writes the error line
and returns `null`. -/
theorem C16_entry_point {δ0 δ1 δ2 δ3 : Type} (host : Host δ0 δ1 δ2 δ3) :
    (∀ a : Nat, host.getModuleSymbolAddress "d3d12core" = some a →
        (__d3d12DeviceRemovedExtendedData host).returned
          = ("d3d12core" :: host.Modules).findSome?
              (fun m => (castAndDispatch host (some a) m).toOption))
    ∧ (host.getModuleSymbolAddress "d3d12core" = none →
        (__d3d12DeviceRemovedExtendedData host).returned
          = ("d3d12" :: host.Modules).findSome?
              (fun m => (castAndDispatch host (host.getModuleSymbolAddress "d3d12") m).toOption))
    ∧ ((__d3d12DeviceRemovedExtendedData host).returned = none →
        (__d3d12DeviceRemovedExtendedData host).log
          = ["ERROR: D3D12_VERSIONED_DEVICE_REMOVED_EXTENDED_DATA not found in any loaded symbol files.\n"])
    ∧ ((__d3d12DeviceRemovedExtendedData host).returned ≠ none →
        (__d3d12DeviceRemovedExtendedData host).log = []) := by
  have hgen : ∀ (x : Option Nat) (src : String),
      (match castAndDispatch host x src with
        | Except.ok data => Outcome.mk src [] (some data)
        | Except.error _ =>
          match __d3d12DeviceRemovedExtendedData.loop host x src host.Modules with
          | (source, some data) => Outcome.mk source [] (some data)
          | (source, none) =>
            Outcome.mk source
              ["ERROR: D3D12_VERSIONED_DEVICE_REMOVED_EXTENDED_DATA not found in any loaded symbol files.\n"]
              none).returned
        = (src :: host.Modules).findSome? (fun m => (castAndDispatch host x m).toOption) := by
    intro x src
    rw [List.findSome?_cons, ← entryPoint_loop_first host x host.Modules src]
    cases hc : castAndDispatch host x src with
    | ok data => rfl
    | error e =>
      simp only [Except.toOption]
      rcases hl : __d3d12DeviceRemovedExtendedData.loop host x src host.Modules with ⟨source, r⟩
      cases r <;> rfl
  have hlog : ((__d3d12DeviceRemovedExtendedData host).returned = none →
        (__d3d12DeviceRemovedExtendedData host).log
          = ["ERROR: D3D12_VERSIONED_DEVICE_REMOVED_EXTENDED_DATA not found in any loaded symbol files.\n"])
      ∧ ((__d3d12DeviceRemovedExtendedData host).returned ≠ none →
        (__d3d12DeviceRemovedExtendedData host).log = []) := by
    simp only [__d3d12DeviceRemovedExtendedData]
    split
    · exact ⟨fun h => by simp at h, fun _ => rfl⟩
    · split
      · exact ⟨fun h => by simp at h, fun _ => rfl⟩
      · exact ⟨fun _ => rfl, fun h => absurd rfl h⟩
  refine ⟨?_, ?_, hlog.1, hlog.2⟩
  · intro a ha
    have := hgen (some a) "d3d12core"
    simpa [__d3d12DeviceRemovedExtendedData, ha] using this
  · intro hn
    have := hgen (host.getModuleSymbolAddress "d3d12") "d3d12"
    simpa [__d3d12DeviceRemovedExtendedData, hn] using this

/-- Instances of C16: on a host where only `d3d12` exports the symbol and only the third
loaded module gives the layout, the entry point returns the data dispatched for the tag
2 and writes nothing; on a host where no module gives the layout it returns `null` and
writes the error line. -/
theorem C16_entry_point_witness :
    (__d3d12DeviceRemovedExtendedData strippedHost).returned = some (DataValue.Dred_1_1 "v2")
    ∧ (__d3d12DeviceRemovedExtendedData strippedHost).log = []
    ∧ (__d3d12DeviceRemovedExtendedData bareHost).returned = none
    ∧ (__d3d12DeviceRemovedExtendedData bareHost).log
        = ["ERROR: D3D12_VERSIONED_DEVICE_REMOVED_EXTENDED_DATA not found in any loaded symbol files.\n"] := by
  have h1 : (__d3d12DeviceRemovedExtendedData strippedHost).returned
      = some (DataValue.Dred_1_1 "v2") := by
    rw [(C16_entry_point strippedHost).2.1 (by decide)]
    decide
  have h2 : (__d3d12DeviceRemovedExtendedData bareHost).returned = none := by
    rw [(C16_entry_point bareHost).1 8192 (by decide)]
    decide
  exact ⟨h1, (C16_entry_point strippedHost).2.2.2 (by rw [h1]; simp), h2,
    (C16_entry_point bareHost).2.2.1 h2⟩

/-- C17: the capacity constant is `(65536 - 4096) / 4 = 15360`, and both views work
with this value. The completed view writes its overflow line exactly when the issued
counter exceeds 15360, and when it runs its loop it stops after 15360 entries. The
outstanding view writes its line exactly when more than 15360 operations are
outstanding, starts at `max(completed, issued - 15360)` and reads each entry at the
subscript `opIndex % 15360`. -/
theorem C17_capacity_constant {ω σ : Type} (node : BreadcrumbNode ω σ) :
    AutoBreadcrumbsCommandHistoryMax = (65536 - 4096) / 4
    ∧ AutoBreadcrumbsCommandHistoryMax = 15360
    ∧ ((CompletedOps.iterator (CompletedOps.new node)).log ≠ []
        ↔ node.BreadcrumbCount > 15360)
    ∧ (node.BreadcrumbCount ≤ 15360 →
        ((CompletedOps.iterator (CompletedOps.new node)).yielded.length : Int)
          = max 0 (min node.pLastBreadcrumbValue 15360))
    ∧ ((OutstandingOps.iterator (OutstandingOps.new node)).log ≠ []
        ↔ node.BreadcrumbCount - node.pLastBreadcrumbValue > 15360)
    ∧ (OutstandingOps.iterator (OutstandingOps.new node)).yielded =
        (List.range (node.BreadcrumbCount
            - max node.pLastBreadcrumbValue (node.BreadcrumbCount - 15360)).toNat).map
          (fun j : Nat =>
            Yield.mk (max node.pLastBreadcrumbValue (node.BreadcrumbCount - 15360) + j)
              (Int.tmod (max node.pLastBreadcrumbValue (node.BreadcrumbCount - 15360) + j) 15360)
              (readBreadcrumbOp node (getContextTable node)
                (Int.tmod (max node.pLastBreadcrumbValue (node.BreadcrumbCount - 15360) + j)
                  15360))) := by
  have hcap : AutoBreadcrumbsCommandHistoryMax = 15360 := by decide
  have hn : (CompletedOps.new node).numOps = node.BreadcrumbCount := rfl
  have hc : (CompletedOps.new node).numCompletedOps = node.pLastBreadcrumbValue := rfl
  refine ⟨by decide, hcap, ?_, ?_, ?_, ?_⟩
  · rw [CompletedOps.iterator, hcap]
    by_cases hov : (CompletedOps.new node).numOps > 15360
    · rw [CompletedOps.iteratorWith_overflow 15360 _ hov]
      rw [hn] at hov
      simp [hov]
    · rw [CompletedOps.iteratorWith_fits 15360 _ hov]
      rw [hn] at hov
      simp [hov]
  · intro hle
    have hov : ¬ (CompletedOps.new node).numOps > 15360 := by rw [hn]; omega
    rw [CompletedOps.iterator, hcap, CompletedOps.iteratorWith_fits 15360 _ hov]
    simp only []
    rw [CompletedOps.loop_closed_form 15360 _ _ _ _ rfl, List.length_map, List.length_range, hc]
    omega
  · have hlog : (OutstandingOps.iterator (OutstandingOps.new node)).log =
        if (node.BreadcrumbCount - node.pLastBreadcrumbValue) - 15360 > 0 then
          [OutstandingOps.line135 (OutstandingOps.remaining 15360 (OutstandingOps.new node))
            (node.BreadcrumbCount - node.pLastBreadcrumbValue)]
        else [] := by
      rw [OutstandingOps.iterator, hcap]
      rfl
    rw [hlog]
    by_cases h : (node.BreadcrumbCount - node.pLastBreadcrumbValue) - 15360 > 0
    · simp only [if_pos h, ne_eq, List.cons_ne_nil, not_false_eq_true, true_iff]
      omega
    · simp only [if_neg h, ne_eq, not_true_eq_false, false_iff]
      omega
  · rw [OutstandingOps.iterator, hcap]
    simp only [OutstandingOps.iteratorWith, OutstandingOps.start, OutstandingOps.new]
    rw [OutstandingOps.loop_ascending_form 15360 _ _ _ _ rfl]

/-- Instances of C17: with 15360 operations issued the completed view stops after 15360
entries even when 20000 are reported complete, and with 15361 issued it writes its
overflow line. -/
theorem C17_capacity_constant_witness :
    ((CompletedOps.iterator (CompletedOps.new (plainNode 15360 20000))).yielded.length : Int)
        = 15360
    ∧ (CompletedOps.iterator (CompletedOps.new (plainNode 15361 0))).log ≠ [] := by
  have h1 := (C17_capacity_constant (plainNode 15360 20000)).2.2.2.1 (by decide)
  have h2 := (C17_capacity_constant (plainNode 15361 0)).2.2.1.mpr (by decide)
  refine ⟨?_, h2⟩
  rw [h1]
  decide

/-- C18: in both views, whatever entry is yielded, its op-code is the one stored at the
subscript `index` it was read from; its annotation is the context string of the last
annotation entry whose `BreadcrumbIndex` is that subscript; and it has no annotation
exactly when no annotation entry has that `BreadcrumbIndex`. -/
theorem C18_annotation_of_slot {ω σ : Type} (cap : Int) (node : BreadcrumbNode ω σ)
    (y : Yield ω σ)
    (hy : y ∈ (CompletedOps.iteratorWith cap (CompletedOps.new node)).yielded
      ∨ y ∈ (OutstandingOps.iteratorWith cap (OutstandingOps.new node)).yielded) :
    y.value.op = node.pCommandHistory y.index
    ∧ (∀ i : Int, 0 ≤ i → i < node.BreadcrumbContextsCount →
        (node.pBreadcrumbContexts i).BreadcrumbIndex = y.index →
        (∀ j : Int, i < j → j < node.BreadcrumbContextsCount →
          (node.pBreadcrumbContexts j).BreadcrumbIndex ≠ y.index) →
        y.value.context = some (node.pBreadcrumbContexts i).pContextString)
    ∧ (y.value.context = none ↔
        ∀ i : Int, 0 ≤ i → i < node.BreadcrumbContextsCount →
          (node.pBreadcrumbContexts i).BreadcrumbIndex ≠ y.index) := by
  have hv : y.value = readBreadcrumbOp node (getContextTable node) y.index := by
    rcases hy with hy | hy
    · exact (CompletedOps.mem_yielded_completed cap node y hy).2.2
    · exact (OutstandingOps.mem_yielded_outstanding cap node y hy).2.2.2
  refine ⟨?_, ?_, ?_⟩
  · rw [hv]; rfl
  · intro i h0 h1 h2 h3
    rw [hv]
    exact readBreadcrumbOp_context_some node _ _ i
      ((getContextTable_last node y.index i).mpr ⟨h0, h1, h2, h3⟩)
  · rw [hv]
    constructor
    · intro hnone
      apply (getContextTable_absent node y.index).mp
      cases ht : getContextTable node y.index with
      | none => rfl
      | some j =>
        rw [readBreadcrumbOp_context_some node _ _ j ht] at hnone
        exact absurd hnone (by simp)
    · intro hall
      exact readBreadcrumbOp_context_none node _ _
        ((getContextTable_absent node y.index).mpr hall)

/-- Instances of C18 on the scenario node, whose annotation entries carry the indices
2, 0, 2. The completed view at the capacity of the script yields an entry read from
subscript 2 that carries the string of the later of the two entries with index 2, and
an entry read from subscript 1 with no annotation; the outstanding view at capacity 4
yields an entry read from subscript 2 that carries the same string. -/
theorem C18_annotation_of_slot_witness :
    (∃ y ∈ (CompletedOps.iterator (CompletedOps.new scenarioNode)).yielded,
      y.index = 2 ∧ y.value.op = 102 ∧ y.value.context = some "third")
    ∧ (∃ y ∈ (CompletedOps.iterator (CompletedOps.new scenarioNode)).yielded,
      y.index = 1 ∧ y.value.op = 101 ∧ y.value.context = none)
    ∧ (∃ y ∈ (OutstandingOps.iteratorWith 4 (OutstandingOps.new scenarioNode)).yielded,
      y.index = 2 ∧ y.value.op = 102 ∧ y.value.context = some "third") := by
  have hcap : AutoBreadcrumbsCommandHistoryMax = 15360 := by decide
  have hcount : scenarioNode.BreadcrumbContextsCount = 3 := rfl
  have hidx : ∀ j : Int, (scenarioNode.pBreadcrumbContexts j).BreadcrumbIndex
      = if j = 0 then 2 else if j = 1 then 0 else 2 := by
    intro j
    simp only [scenarioNode]
    split_ifs <;> rfl
  have hfit : ¬ (CompletedOps.new scenarioNode).numOps > AutoBreadcrumbsCommandHistoryMax := by
    rw [hcap]; decide
  have hcompleted : ∀ j : Nat, j < 6 →
      Yield.mk (0 + (j : Int)) (6 - (0 + (j : Int)) - 1)
        (readBreadcrumbOp scenarioNode (getContextTable scenarioNode) (6 - (0 + (j : Int)) - 1))
      ∈ (CompletedOps.iterator (CompletedOps.new scenarioNode)).yielded := by
    intro j hj
    rw [CompletedOps.iterator, CompletedOps.iteratorWith_fits _ _ hfit]
    simp only []
    rw [CompletedOps.loop_closed_form _ _ _ 6 0 (by rw [hcap]; decide)]
    exact List.mem_map.mpr ⟨j, List.mem_range.mpr hj, rfl⟩
  have houtstanding : Yield.mk (6 + ((0 : Nat) : Int)) (Int.tmod (6 + ((0 : Nat) : Int)) 4)
      (readBreadcrumbOp scenarioNode (getContextTable scenarioNode)
        (Int.tmod (6 + ((0 : Nat) : Int)) 4))
      ∈ (OutstandingOps.iteratorWith 4 (OutstandingOps.new scenarioNode)).yielded := by
    simp only [OutstandingOps.iteratorWith]
    rw [OutstandingOps.loop_ascending_form 4 _ _ 4 _ (by decide)]
    exact List.mem_map.mpr ⟨0, by decide, rfl⟩
  have h2 := C18_annotation_of_slot AutoBreadcrumbsCommandHistoryMax scenarioNode _
    (Or.inl (hcompleted 3 (by decide)))
  have h1 := C18_annotation_of_slot AutoBreadcrumbsCommandHistoryMax scenarioNode _
    (Or.inl (hcompleted 4 (by decide)))
  have h := C18_annotation_of_slot 4 scenarioNode _ (Or.inr houtstanding)
  refine ⟨⟨_, hcompleted 3 (by decide), by decide, ?_, ?_⟩,
    ⟨_, hcompleted 4 (by decide), by decide, ?_, ?_⟩,
    ⟨_, houtstanding, by decide, ?_, ?_⟩⟩
  · rw [h2.1]; decide
  · refine h2.2.1 2 (by decide) (by decide) (by decide) ?_
    intro j hj1 hj2
    rw [hcount] at hj2
    omega
  · rw [h1.1]; decide
  · refine h1.2.2.mpr ?_
    intro i hi0 hi1
    rw [hcount] at hi1
    rw [hidx]
    have e : (6 : Int) - (0 + ((4 : Nat) : Int)) - 1 = 1 := by decide
    simp only [e]
    split_ifs <;> omega
  · rw [h.1]; decide
  · refine h.2.1 2 (by decide) (by decide) (by decide) ?_
    intro j hj1 hj2
    rw [hcount] at hj2
    omega

/-- C19: with `completed >= 0` (and a positive capacity), whatever the issued counter,
every subscript the outstanding view reads lies in `0 <= index < capacity`. -/
theorem C19_outstanding_slot_in_range {ω σ : Type} (cap : Int) (node : BreadcrumbNode ω σ)
    (hcap : 0 < cap) (h0 : 0 ≤ node.pLastBreadcrumbValue) (y : Yield ω σ)
    (hy : y ∈ (OutstandingOps.iteratorWith cap (OutstandingOps.new node)).yielded) :
    0 ≤ y.index ∧ y.index < cap ∧ y.value.op = node.pCommandHistory y.index := by
  obtain ⟨hs, _, hi, hv⟩ := OutstandingOps.mem_yielded_outstanding cap node y hy
  have hc : 0 ≤ y.counter := by
    simp only [OutstandingOps.start, OutstandingOps.new] at hs
    omega
  have he : Int.tmod y.counter cap = y.counter % cap :=
    Int.tmod_eq_emod hc (le_of_lt hcap)
  refine ⟨?_, ?_, ?_⟩
  · rw [hi, he]
    exact Int.emod_nonneg _ (ne_of_gt hcap)
  · rw [hi, he]
    exact Int.emod_lt_of_pos _ hcap
  · rw [hv]; rfl

/-- An instance of C19 at the capacity of the script: with 40000 operations issued and
100 completed the entry for the logical index 24640 is yielded and is read from the
subscript `24640 mod 15360 = 9280`. -/
theorem C19_outstanding_slot_in_range_witness :
    ∃ y ∈ (OutstandingOps.iterator (OutstandingOps.new (plainNode 40000 100))).yielded,
      y.counter = 24640 ∧ y.index = 9280 ∧ 0 ≤ y.index
      ∧ y.index < AutoBreadcrumbsCommandHistoryMax := by
  have hcap : AutoBreadcrumbsCommandHistoryMax = 15360 := by decide
  have hmem : Yield.mk (24640 + ((0 : Nat) : Int)) (Int.tmod (24640 + ((0 : Nat) : Int)) 15360)
      (readBreadcrumbOp (plainNode 40000 100) (getContextTable (plainNode 40000 100))
        (Int.tmod (24640 + ((0 : Nat) : Int)) 15360))
      ∈ (OutstandingOps.iterator (OutstandingOps.new (plainNode 40000 100))).yielded := by
    simp only [OutstandingOps.iterator, OutstandingOps.iteratorWith, hcap]
    rw [OutstandingOps.loop_ascending_form 15360 _ _ 15360 _ (by decide)]
    exact List.mem_map.mpr ⟨0, by simp, rfl⟩
  have h := C19_outstanding_slot_in_range AutoBreadcrumbsCommandHistoryMax (plainNode 40000 100)
    (by rw [hcap]; decide) (by decide) _ hmem
  exact ⟨_, hmem, by decide, by decide, h.1, h.2.1⟩

/-- C20: with `0 <= completed <= issued <= capacity` the two views split the issued
history: the logical indices of the completed view in reverse order, followed by the
logical indices of the outstanding view, are `0, 1, ..., issued - 1`, each once. -/
theorem C20_views_partition {ω σ : Type} (cap : Int) (node : BreadcrumbNode ω σ)
    (h0 : 0 ≤ node.pLastBreadcrumbValue)
    (h1 : node.pLastBreadcrumbValue ≤ node.BreadcrumbCount)
    (h2 : node.BreadcrumbCount ≤ cap) :
    ((CompletedOps.iteratorWith cap (CompletedOps.new node)).yielded.map
        (fun y => y.index)).reverse
      ++ (OutstandingOps.iteratorWith cap (OutstandingOps.new node)).yielded.map
        (fun y => y.counter)
      = (List.range node.BreadcrumbCount.toNat).map (fun j : Nat => (j : Int)) := by
  obtain ⟨c, hc⟩ : ∃ c : Nat, node.pLastBreadcrumbValue = (c : Int) :=
    ⟨node.pLastBreadcrumbValue.toNat, by omega⟩
  obtain ⟨d, hd⟩ : ∃ d : Nat, node.BreadcrumbCount = (c : Int) + (d : Int) :=
    ⟨(node.BreadcrumbCount - node.pLastBreadcrumbValue).toNat, by omega⟩
  have hfit : ¬ (CompletedOps.new node).numOps > cap := by
    simp only [CompletedOps.new]
    omega
  have hcomp : (CompletedOps.iteratorWith cap (CompletedOps.new node)).yielded.map
      (fun y => y.index)
      = (List.range c).map (fun j : Nat => (c : Int) - (0 + (j : Int)) - 1) := by
    rw [CompletedOps.iteratorWith_fits cap _ hfit]
    simp only []
    rw [CompletedOps.loop_closed_form cap _ _ c 0 (by simp only [CompletedOps.new]; omega)]
    simp only [List.map_map, CompletedOps.new, hc]
    rfl
  have hout : (OutstandingOps.iteratorWith cap (OutstandingOps.new node)).yielded.map
      (fun y => y.counter)
      = (List.range d).map (fun j : Nat => (c : Int) + (j : Int)) := by
    simp only [OutstandingOps.iteratorWith]
    have hstart : OutstandingOps.start cap (OutstandingOps.new node) = (c : Int) := by
      simp only [OutstandingOps.start, OutstandingOps.new]
      omega
    rw [hstart, OutstandingOps.loop_ascending_form cap _ _ d _
      (by simp only [OutstandingOps.new]; omega)]
    simp only [List.map_map]
    rfl
  rw [hcomp, hout, reverse_countdown, hd]
  have ht : ((c : Int) + (d : Int)).toNat = c + d := by omega
  rw [ht, List.range_add, List.map_append, List.map_map]
  congr 1

/-- An instance of C20 at capacity 16 on the scenario node (issued 10, completed 6): the
completed view gives 5, 4, 3, 2, 1, 0 and the outstanding view 6, 7, 8, 9. -/
theorem C20_views_partition_witness :
    ((CompletedOps.iteratorWith 16 (CompletedOps.new scenarioNode)).yielded.map
        (fun y => y.index)).reverse
      ++ (OutstandingOps.iteratorWith 16 (OutstandingOps.new scenarioNode)).yielded.map
        (fun y => y.counter)
      = [0, 1, 2, 3, 4, 5, 6, 7, 8, 9] := by
  rw [C20_views_partition 16 scenarioNode (by decide) (by decide) (by decide)]
  decide

end D3DDred
